import Mathlib

/-!
Verification of the Drunk_App acquisition-to-decision pipeline.

Shallow embedding of the core components of the repository:

* `SpscRing` — the wait-free bounded ring (`spsc.h`): cursors are stored
  already masked into `[0, N)`; the C++ masking `x & (N - 1)` on a
  power-of-two `N` is embedded as `x % N`.
* `WelfordStats` / `WelfordAnalyzer` — the streaming statistics engine
  (`processor_types.h`, `analyzer.cpp`), with `double` values embedded as `ℚ`
  and the quiet-NaN sentinel of `prev_window_mean` embedded as `Option ℚ`
  (`none` plays the role of NaN, `Option.isSome` the role of `std::isfinite`).
  `std::sqrt` is an external arithmetic leaf; it is threaded through as an
  explicit function parameter `sqrtQ`.
* `BreathAnalyzer` — the hysteresis breath state machine (`analyzer.cpp`).
* `RuntimeProcess.on_batch` / `pop_breath_event` — the runtime processor
  wiring (`processor_types.h`).
* `runLoop` — the consumer control loop `ProcessRunner::run`
  (`process_runner.h`), with clock reads and per-iteration drains supplied
  as explicit oracles.

Unsigned 64-bit arithmetic that can wrap (`uint64_t` subtraction) is embedded
with an explicit `% 2 ^ 64`.
-/

namespace DrunkAPI

/-- Embedding of `uint64_t` subtraction `a - b` (wraps modulo `2 ^ 64`). -/
def u64sub (a b : Nat) : Nat :=
  (a % 2 ^ 64 + (2 ^ 64 - b % 2 ^ 64)) % 2 ^ 64

/-! ## Ring transport (`SpscRing<T, N>`, src `spsc.h`) -/

/-- State of `SpscRing<T, N>`: payload array and the two masked cursors. -/
structure SpscRing (α : Type) where
  ring_buffer : Nat → α
  head : Nat
  tail : Nat

/-- Zero-initialised ring (`std::array<T, N> ring_buffer_{}; head_{0}; tail_{0}`). -/
def SpscRing.init (α : Type) [Inhabited α] : SpscRing α :=
  ⟨fun _ => default, 0, 0⟩

/-- `SpscRing::push_overwrite`: on a full ring advance the tail (dropping the
oldest unread element) before writing.  Returns `!overwriten`. -/
def SpscRing.push_overwrite (N : Nat) (s : SpscRing α) (value : α) :
    SpscRing α × Bool :=
  let head := s.head
  let next := (head + 1) % N
  if next = s.tail then
    -- full: advance tail and drop the oldest
    (⟨fun i => if i = head then value else s.ring_buffer i,
      next, (s.tail + 1) % N⟩, false)
  else
    (⟨fun i => if i = head then value else s.ring_buffer i,
      next, s.tail⟩, true)

/-- `SpscRing::pop`: read the slot at `tail_` when nonempty. -/
def SpscRing.pop (N : Nat) (s : SpscRing α) : Option α × SpscRing α :=
  if s.tail = s.head then
    (none, s)
  else
    (some (s.ring_buffer s.tail), ⟨s.ring_buffer, s.head, (s.tail + 1) % N⟩)

/-- `SpscRing::pop_batch`: repeated `pop` until empty or `max_batch` elements. -/
def SpscRing.pop_batch (N : Nat) (s : SpscRing α) :
    Nat → List α × SpscRing α
  | 0 => ([], s)
  | max_batch + 1 =>
    match s.pop N with
    | (none, s') => ([], s')
    | (some v, s') =>
      let rest := s'.pop_batch N max_batch
      (v :: rest.1, rest.2)

/-- Sequence of `push_overwrite` calls; also counts the pushes that reported
an eviction (returned `false`). -/
def SpscRing.push_overwrite_all (N : Nat) :
    SpscRing α → List α → SpscRing α × Nat
  | s, [] => (s, 0)
  | s, v :: vs =>
    let step := s.push_overwrite N v
    let rest := step.1.push_overwrite_all N vs
    (rest.1, (if step.2 then 0 else 1) + rest.2)

/-- Invariant tying a ring state to the list of values pushed so far: after
`k` pushes of the elements of `l` into an initially empty ring, the cursors
are the masked virtual cursors and the live slots hold the most recent
`min k (N - 1)` values. -/
def RingPushInv (N : Nat) (s : SpscRing α) (l : List α) (k : Nat) : Prop :=
  k ≤ l.length ∧
  s.head = k % N ∧
  s.tail = (k - min k (N - 1)) % N ∧
  ∀ i, k - min k (N - 1) ≤ i → i < k → l[i]? = some (s.ring_buffer (i % N))

/-- Invariant for popping: the slots at virtual indices `[lo, hi)` hold the
corresponding elements of `l`. -/
def RingPopInv (N : Nat) (s : SpscRing α) (l : List α) (lo hi : Nat) : Prop :=
  lo ≤ hi ∧ hi - lo < N ∧ hi ≤ l.length ∧
  s.head = hi % N ∧ s.tail = lo % N ∧
  ∀ i, lo ≤ i → i < hi → l[i]? = some (s.ring_buffer (i % N))

/-! ## Welford statistics helper (`WelfordStats`, src `processor_types.h`) -/

/-- State of `WelfordStats`; `double` values are embedded as `ℚ`. -/
structure WelfordStats where
  num_samples : Nat
  mean : ℚ
  m2 : ℚ

/-- Member initialisers `num_samples = 0; mean = 0.0; m2 = 0.0`. -/
def WelfordStats.init : WelfordStats := ⟨0, 0, 0⟩

/-- `WelfordStats::reset`. -/
def WelfordStats.reset (_s : WelfordStats) : WelfordStats := ⟨0, 0, 0⟩

/-- `WelfordStats::push`. -/
def WelfordStats.push (s : WelfordStats) (value : ℚ) : WelfordStats :=
  let num_samples := s.num_samples + 1
  let delta := value - s.mean
  let mean := s.mean + delta / (num_samples : ℚ)
  let delta2 := value - mean
  ⟨num_samples, mean, s.m2 + delta * delta2⟩

/-- `WelfordStats::variance_sample`. -/
def WelfordStats.variance_sample (s : WelfordStats) : ℚ :=
  if 1 < s.num_samples then s.m2 / ((s.num_samples - 1 : Nat) : ℚ) else 0

/-- Repeated `push` of a whole sequence of values. -/
def WelfordStats.pushAll (s : WelfordStats) (l : List ℚ) : WelfordStats :=
  l.foldl WelfordStats.push s

/-- Direct (two-pass) mean of a sequence. -/
def twoPassMean (l : List ℚ) : ℚ := l.sum / (l.length : ℚ)

/-- Direct (two-pass) sample variance of a sequence. -/
def twoPassVariance (l : List ℚ) : ℚ :=
  if 1 < l.length then
    (l.map (fun x => (x - twoPassMean l) ^ 2)).sum / ((l.length : ℚ) - 1)
  else 0

/-- Sum of squares of a sequence. -/
def sumSq (l : List ℚ) : ℚ := (l.map (fun x => x ^ 2)).sum

/-! ## Welford window analyzer (`WelfordAnalyzer`, src `analyzer.cpp`) -/

/-- `constexpr float us_to_sec = 1'000'000.0`. -/
def us_to_sec : ℚ := 1000000

/-- Stability-relevant fields of `Analyzer_Config` (src `config_settings.h`). -/
structure Analyzer_Config where
  window_micro : Nat
  min_window_sample_size : Nat
  stddev_max : ℚ
  drift_per_sec_max : ℚ
  stable_consecutive_windows_req : Nat

/-- `WindowResult`; `mean_prev` is a `double` that may hold the quiet-NaN
sentinel, embedded as `Option ℚ` (`none` = NaN). -/
structure WindowResult where
  stable : Bool
  mean : ℚ
  stddev : ℚ
  mean_prev : Option ℚ
  drift_per_sec : ℚ
  window_start_us : Nat
  window_end_us : Nat

/-- Default (zero) initialisation of `WindowResult` (`mean_prev = 0.0`). -/
instance : Inhabited WindowResult := ⟨⟨false, 0, 0, some 0, 0, 0, 0⟩⟩

/-- `ProcessState::StateAction`. -/
inductive StateAction where
  | Continue
  | Done
  | Abort
deriving DecidableEq

/-- `ProcessState::Event` (`None, Warmup, Ready, Processing, Cooldown,
Analyzed`). -/
inductive StateEvent where
  | None
  | Warmup
  | Ready
  | Processing
  | Cooldown
  | Analyzed
deriving DecidableEq

/-- `ProcessState::StepResult<ResultT>`. -/
structure StepResult (ρ : Type) where
  action : StateAction := StateAction.Continue
  event : StateEvent := StateEvent.None
  result : ρ

/-- `WelfordStats::stddev_sample`; `std::sqrt` is an external arithmetic
leaf supplied as the parameter `sqrtQ`. -/
def WelfordStats.stddev_sample (sqrtQ : ℚ → ℚ) (s : WelfordStats) : ℚ :=
  sqrtQ s.variance_sample

/-- State of `WelfordAnalyzer`; `prev_window_mean` starts as quiet NaN,
embedded as `none`. -/
structure WelfordAnalyzer where
  cfg : Analyzer_Config
  WfS : WelfordStats
  stable_window_count : Nat
  window_start_micro_sec : Nat
  window_end_micro_sec : Nat
  prev_window_mean : Option ℚ

/-- Constructor `WelfordAnalyzer(cfg)` with member initialisers. -/
def WelfordAnalyzer.mkInit (cfg : Analyzer_Config) : WelfordAnalyzer :=
  ⟨cfg, WelfordStats.init, 0, 0, 0, none⟩

/-- `WelfordAnalyzer::reset`. -/
def WelfordAnalyzer.reset (a : WelfordAnalyzer) : WelfordAnalyzer :=
  ⟨a.cfg, a.WfS.reset, 0, 0, 0, none⟩

/-- `WelfordAnalyzer::FinalizeWindow`: returns the produced step and the
updated analyzer state.  `std::isfinite(prev_window_mean)` is
`Option.isSome`; for fewer than `min_window_sample_size` samples the
function returns early, leaving `prev_window_mean` untouched. -/
def WelfordAnalyzer.FinalizeWindow (sqrtQ : ℚ → ℚ) (a : WelfordAnalyzer) :
    StepResult WindowResult × WelfordAnalyzer :=
  let window_start_us := a.window_start_micro_sec
  let window_end_us := (a.window_start_micro_sec + a.cfg.window_micro) % 2 ^ 64
  if a.WfS.num_samples < a.cfg.min_window_sample_size then
    ({ result := { stable := false, mean := a.WfS.mean,
                   stddev := a.WfS.stddev_sample sqrtQ,
                   mean_prev := a.prev_window_mean, drift_per_sec := 0,
                   window_start_us := window_start_us,
                   window_end_us := window_end_us } },
     { a with stable_window_count := 0 })
  else
    let mean := a.WfS.mean
    let standard_deviation := a.WfS.stddev_sample sqrtQ
    let drift_per_sec : ℚ :=
      match a.prev_window_mean with
      | some prev => |mean - prev| / ((a.cfg.window_micro : ℚ) / us_to_sec)
      | none => 0
    let bWindowStable :=
      decide (standard_deviation ≤ a.cfg.stddev_max) &&
        (a.prev_window_mean.isNone ||
          decide (drift_per_sec ≤ a.cfg.drift_per_sec_max))
    let stable_window_count :=
      if bWindowStable then a.stable_window_count + 1 else 0
    ({ result := { stable :=
                     decide (a.cfg.stable_consecutive_windows_req ≤
                       stable_window_count),
                   mean := mean, stddev := standard_deviation,
                   mean_prev := a.prev_window_mean,
                   drift_per_sec := drift_per_sec,
                   window_start_us := window_start_us,
                   window_end_us := window_end_us } },
     { a with stable_window_count := stable_window_count,
              prev_window_mean := some mean })

/-- Finalize loop of `WelfordAnalyzer::AnalyzeSample`
(`while (t - window_start >= window_micro) { FinalizeWindow();
window_start += window_micro; WfS.reset(); }`), written with structural
fuel; the extra `0 < window_micro` guard makes the function total (the C++
loop does not terminate for a zero window duration).  Collects every
finalized step; the C++ `out` variable holds the last of them. -/
def finalizeLoop (sqrtQ : ℚ → ℚ) :
    Nat → WelfordAnalyzer → Nat → List (StepResult WindowResult) × WelfordAnalyzer
  | 0, a, _t => ([], a)
  | fuel + 1, a, t =>
    if 0 < a.cfg.window_micro ∧
        a.cfg.window_micro ≤ u64sub t a.window_start_micro_sec then
      let fin := a.FinalizeWindow sqrtQ
      let a' := { fin.2 with
        window_start_micro_sec :=
          (fin.2.window_start_micro_sec + fin.2.cfg.window_micro) % 2 ^ 64,
        WfS := fin.2.WfS.reset }
      let rest := finalizeLoop sqrtQ fuel a' t
      (fin.1 :: rest.1, rest.2)
    else ([], a)

/-- `WelfordAnalyzer::AnalyzeSample`, instrumented to return the whole list
of steps finalized during the internal loop (the C++ function returns the
last of them, see `WelfordAnalyzer.AnalyzeSample`).  The fuel
`u64sub t ws / window + 1` strictly dominates the loop's iteration count. -/
def WelfordAnalyzer.AnalyzeSampleCore (sqrtQ : ℚ → ℚ) (a : WelfordAnalyzer)
    (t_micro : Nat) (sample : ℚ) :
    List (StepResult WindowResult) × WelfordAnalyzer :=
  let a := if a.window_start_micro_sec = 0 then
    { a with window_start_micro_sec := t_micro } else a
  let fuel := u64sub t_micro a.window_start_micro_sec /
    max 1 a.cfg.window_micro + 1
  let loop := finalizeLoop sqrtQ fuel a t_micro
  (loop.1,
   { loop.2 with WfS := loop.2.WfS.push sample,
                 window_end_micro_sec := t_micro })

/-- `WelfordAnalyzer::AnalyzeSample` proper: the returned step is the last
finalized one, or the zero-initialised `StepResult` if none was. -/
def WelfordAnalyzer.AnalyzeSample (sqrtQ : ℚ → ℚ) (a : WelfordAnalyzer)
    (t_micro : Nat) (sample : ℚ) : StepResult WindowResult × WelfordAnalyzer :=
  let core := a.AnalyzeSampleCore sqrtQ t_micro sample
  (core.1.getLastD { result := default }, core.2)

/-- Concrete interpretation of `std::sqrt` used in closed instances; the
stated facts about window bookkeeping do not depend on it. -/
def sqrtQ0 : ℚ → ℚ := fun _ => 0

/-- Default analyzer configuration from `config_settings.h`
(`WindowUs = 1'000'000`, `MinWindowSamples = 80`,
`Max_Sd_Threshold = 0.002`, `Max_Drift_Rate_Per_Sec = 0.001`,
`Max_Consecutive_Windows = 3`). -/
def defaultAnalyzerCfg : Analyzer_Config :=
  ⟨1000000, 80, 2 / 1000, 1 / 1000, 3⟩

/-! ## Breath state machine (`BreathAnalyzer`, src `analyzer.cpp`) -/

/-- `BreathAnalyzer_Config` (src `config_settings.h`). -/
structure BreathAnalyzer_Config where
  warmup_stable_windows : Nat
  cooldown_stable_windows : Nat
  min_blow_time_us : Nat
  max_blow_time_us : Nat
  start_delta_v : ℚ
  end_delta_v : ℚ
  baseline_alpha : ℚ
  start_k_sigma : ℚ
  end_k_sigma : ℚ
  ready_delta_v : ℚ
  ready_k_sigma : ℚ

/-- `BreathAnalyzerState` (`None, Warmup, Ready, Processing, Cooldown,
Analyzed`). -/
inductive BreathAnalyzerState where
  | None
  | Warmup
  | Ready
  | Processing
  | Cooldown
  | Analyzed
deriving DecidableEq

/-- `BreathEvent` with its member initialisers. -/
structure BreathEvent where
  start_us : Nat := 0
  end_us : Nat := 0
  peak_voltage : ℚ := 0
  State : BreathAnalyzerState := BreathAnalyzerState.Warmup

/-- `BreathResult` with its member initialisers. -/
structure BreathResult where
  baseline_mean : ℚ := 0
  baseline_std : ℚ := 0
  peak_volts : ℚ := 0
  last_window : WindowResult := default

/-- State of `BreathAnalyzer` with its member initialisers. -/
structure BreathAnalyzer where
  bcfg : BreathAnalyzer_Config
  breath_state : BreathAnalyzerState := BreathAnalyzerState.Warmup
  baseline_stable_count : Nat := 0
  cooldown_stable_count : Nat := 0
  breath_start_us : Nat := 0
  cooldown_start_us : Nat := 0
  analyzed_end_us : Nat := 0
  cur_peak_voltage : ℚ := 0
  bWarmedup : Bool := false
  bFoundbaseline : Bool := false
  bFreezebaseline : Bool := false

/-- Constructor `BreathAnalyzer(bcfg)`. -/
def BreathAnalyzer.mkInit (bcfg : BreathAnalyzer_Config) : BreathAnalyzer :=
  { bcfg := bcfg }

/-- `BreathAnalyzer::UpdateBaseline` (mutates the analyzer and the result;
returns both).  On the first stable window the baseline is seeded and the
counter set to 1, after which the EWMA update and the warmup counter
increment still run. -/
def BreathAnalyzer.UpdateBaseline (b : BreathAnalyzer)
    (breathwindow : WindowResult) (breathresult : BreathResult) :
    BreathAnalyzer × BreathResult :=
  if b.bFreezebaseline then (b, breathresult)
  else if !breathwindow.stable then (b, breathresult)
  else
    let alpha := b.bcfg.baseline_alpha
    let seeded :=
      if !b.bFoundbaseline then
        ({ b with bFoundbaseline := true, baseline_stable_count := 1 },
         { breathresult with baseline_mean := breathwindow.mean,
                             baseline_std := breathwindow.stddev })
      else (b, breathresult)
    let b := seeded.1
    let breathresult := seeded.2
    let breathresult := { breathresult with
      baseline_mean := (1 - alpha) * breathresult.baseline_mean +
        alpha * breathwindow.mean,
      baseline_std := (1 - alpha) * breathresult.baseline_std +
        alpha * breathwindow.stddev }
    let b := if !b.bWarmedup then
      { b with baseline_stable_count := b.baseline_stable_count + 1 } else b
    (b, breathresult)

/-- `BreathAnalyzer::Warmup`. -/
def BreathAnalyzer.Warmup (b : BreathAnalyzer) : Bool × BreathAnalyzer :=
  if b.bFoundbaseline &&
      decide (b.bcfg.warmup_stable_windows ≤ b.baseline_stable_count) then
    (false, { b with bWarmedup := true,
                     breath_state := BreathAnalyzerState.Ready,
                     baseline_stable_count := 0 })
  else
    (false, { b with breath_state := BreathAnalyzerState.Warmup })

/-- `BreathAnalyzer::Ready`. -/
def BreathAnalyzer.Ready (b : BreathAnalyzer) (breathwindow : WindowResult)
    (breathresult : BreathResult) (start_threshold : ℚ) :
    Bool × BreathAnalyzer × BreathResult :=
  if breathwindow.mean < start_threshold then (false, b, breathresult)
  else
    let breath_start_us := if breathwindow.window_start_us ≠ 0 then
      breathwindow.window_start_us else breathwindow.window_end_us
    (false,
     { b with breath_state := BreathAnalyzerState.Processing,
              breath_start_us := breath_start_us,
              cur_peak_voltage := breathwindow.mean,
              cooldown_stable_count := 0 },
     { breathresult with peak_volts := breathwindow.mean })

/-- `BreathAnalyzer::Processing`; `elapsed` is the `uint64_t` difference
`window_end_us - breath_start_us`. -/
def BreathAnalyzer.Processing (b : BreathAnalyzer)
    (breathwindow : WindowResult) (breathresult : BreathResult)
    (end_threshold : ℚ) (out_event : BreathEvent) :
    Bool × BreathAnalyzer × BreathResult × BreathEvent :=
  let cur_peak_voltage := max b.cur_peak_voltage breathwindow.mean
  let b := { b with cur_peak_voltage := cur_peak_voltage }
  let breathresult := { breathresult with peak_volts := cur_peak_voltage }
  let elapsed := u64sub breathwindow.window_end_us b.breath_start_us
  let falling_edge := decide (breathwindow.mean ≤ end_threshold)
  let blowtimeout := decide (b.bcfg.max_blow_time_us ≤ elapsed)
  if !falling_edge && !blowtimeout then
    (false, b, breathresult, out_event)
  else if elapsed < b.bcfg.min_blow_time_us then
    (false,
     { b with breath_state := BreathAnalyzerState.Cooldown,
              cooldown_start_us := breathwindow.window_end_us,
              cooldown_stable_count := 0 },
     breathresult, out_event)
  else
    (true,
     { b with analyzed_end_us := breathwindow.window_end_us,
              breath_state := BreathAnalyzerState.Analyzed },
     breathresult,
     { out_event with start_us := b.breath_start_us,
                      end_us := breathwindow.window_end_us,
                      peak_voltage := cur_peak_voltage })

/-- `BreathAnalyzer::Cooldown`. -/
def BreathAnalyzer.Cooldown (b : BreathAnalyzer)
    (breathwindow : WindowResult) (breathresult : BreathResult)
    (ready_threshold : ℚ) : Bool × BreathAnalyzer × BreathResult :=
  if breathwindow.stable && decide (breathwindow.mean ≤ ready_threshold) then
    let b := { b with cooldown_stable_count := b.cooldown_stable_count + 1 }
    if b.bcfg.cooldown_stable_windows ≤ b.cooldown_stable_count then
      (false,
       { b with breath_state := BreathAnalyzerState.Ready,
                cooldown_stable_count := 0, cur_peak_voltage := 0 },
       { breathresult with peak_volts := 0 })
    else (false, b, breathresult)
  else (false, { b with cooldown_stable_count := 0 }, breathresult)

/-- `BreathAnalyzer::AnalyzeBreath`: returns the emission flag together
with the updated analyzer, result, and out-event. -/
def BreathAnalyzer.AnalyzeBreath (b : BreathAnalyzer)
    (breathwindow : WindowResult) (breathresult : BreathResult) :
    Bool × BreathAnalyzer × BreathResult × BreathEvent :=
  let out_event : BreathEvent := {}
  let breathresult := { breathresult with last_window := breathwindow }
  if breathwindow.window_end_us = 0 then (false, b, breathresult, out_event)
  else if !b.bWarmedup then
    let b := { b with bFreezebaseline := false }
    let upd := b.UpdateBaseline breathwindow breathresult
    let wu := upd.1.Warmup
    (wu.1, wu.2, upd.2, out_event)
  else
    let start_threshold := breathresult.baseline_mean + b.bcfg.start_delta_v +
      b.bcfg.start_k_sigma * breathresult.baseline_std
    let end_threshold := breathresult.baseline_mean + b.bcfg.end_delta_v +
      b.bcfg.end_k_sigma * breathresult.baseline_std
    let ready_threshold := breathresult.baseline_mean + b.bcfg.ready_delta_v +
      b.bcfg.ready_k_sigma * breathresult.baseline_std
    match b.breath_state with
    | BreathAnalyzerState.Ready =>
      let b := { b with bFreezebaseline := false }
      let upd := b.UpdateBaseline breathwindow breathresult
      let out_event := { out_event with State := BreathAnalyzerState.Ready }
      let rd := upd.1.Ready breathwindow upd.2 start_threshold
      (rd.1, rd.2.1, rd.2.2, out_event)
    | BreathAnalyzerState.Processing =>
      let b := { b with bFreezebaseline := true }
      let out_event := { out_event with
        State := BreathAnalyzerState.Processing }
      b.Processing breathwindow breathresult end_threshold out_event
    | BreathAnalyzerState.Analyzed =>
      let out_event := { out_event with
        State := BreathAnalyzerState.Analyzed,
        peak_voltage := breathresult.peak_volts }
      (false,
       { b with breath_state := BreathAnalyzerState.Cooldown,
                cooldown_stable_count := 0 },
       breathresult, out_event)
    | BreathAnalyzerState.Cooldown =>
      let b := { b with bFreezebaseline := false }
      let upd := b.UpdateBaseline breathwindow breathresult
      let out_event := { out_event with State := BreathAnalyzerState.Cooldown }
      let cd := upd.1.Cooldown breathwindow upd.2 ready_threshold
      (cd.1, cd.2.1, cd.2.2, out_event)
    | _ =>
      let out_event := { out_event with State := BreathAnalyzerState.Cooldown }
      (false, b, breathresult, out_event)

/-- Repeated `AnalyzeBreath` over a sequence of finalized windows. -/
def BreathAnalyzer.feed (b : BreathAnalyzer) (breathresult : BreathResult) :
    List WindowResult → BreathAnalyzer × BreathResult
  | [] => (b, breathresult)
  | w :: ws =>
    let step := b.AnalyzeBreath w breathresult
    step.2.1.feed step.2.2.1 ws

/-! ## Processors and consumer loop (src `sampler.h`, `processor_types.h`,
`process_runner.h`) -/

/-- `Sample { uint64_t t_us; int16_t raw; float volts; }`. -/
structure Sample where
  t_us : Nat
  raw : Int
  volts : ℚ

/-- `get_volts` extractor from `processor_types.h`. -/
def get_volts (sample : Sample) : ℚ := sample.volts

/-- Loop of `WelfordAnalyzer::AnalyzeBatch`: tracks the last finalized step,
short-circuiting on the first stable one. -/
def WelfordAnalyzer.AnalyzeBatchAux (sqrtQ : ℚ → ℚ)
    (get_value : Sample → ℚ) :
    WelfordAnalyzer → List Sample → StepResult WindowResult →
      StepResult WindowResult × WelfordAnalyzer
  | a, [], last_finalized => (last_finalized, a)
  | a, smp :: rest, last_finalized =>
    let step := a.AnalyzeSample sqrtQ smp.t_us (get_value smp)
    if step.1.result.window_end_us = 0 then
      -- no finalized window this sample
      WelfordAnalyzer.AnalyzeBatchAux sqrtQ get_value step.2 rest
        last_finalized
    else if step.1.result.stable then (step.1, step.2)
    else WelfordAnalyzer.AnalyzeBatchAux sqrtQ get_value step.2 rest step.1

/-- `WelfordAnalyzer::AnalyzeBatch`. -/
def WelfordAnalyzer.AnalyzeBatch (sqrtQ : ℚ → ℚ) (a : WelfordAnalyzer)
    (samples : List Sample) (get_value : Sample → ℚ) :
    StepResult WindowResult × WelfordAnalyzer :=
  WelfordAnalyzer.AnalyzeBatchAux sqrtQ get_value a samples
    { result := default }

/-- `static_cast<ProcessState::Event>(BreathAnalyzerState)`: both enums list
`None, Warmup, Ready, Processing, Cooldown, Analyzed` in the same order, so
the cast is the name-to-name map. -/
def toStateEvent : BreathAnalyzerState → StateEvent
  | BreathAnalyzerState.None => StateEvent.None
  | BreathAnalyzerState.Warmup => StateEvent.Warmup
  | BreathAnalyzerState.Ready => StateEvent.Ready
  | BreathAnalyzerState.Processing => StateEvent.Processing
  | BreathAnalyzerState.Cooldown => StateEvent.Cooldown
  | BreathAnalyzerState.Analyzed => StateEvent.Analyzed

/-- State of `RuntimeProcess`. -/
structure RuntimeProcess where
  W_analyzer : WelfordAnalyzer
  B_analyzer : BreathAnalyzer
  snapshot : BreathResult := {}
  bHasEvent : Bool := false
  last_event : BreathEvent := {}

/-- `RuntimeProcess::on_batch`: every finalized window is fed to the breath
analyzer and stored as a pending event (single slot), with the event field
set from the breath event's state. -/
def RuntimeProcess.on_batch (sqrtQ : ℚ → ℚ) (rp : RuntimeProcess)
    (samples : List Sample) : StepResult BreathResult × RuntimeProcess :=
  let out0 : StepResult BreathResult :=
    { action := StateAction.Continue, event := StateEvent.None,
      result := rp.snapshot }
  let step := rp.W_analyzer.AnalyzeBatch sqrtQ samples get_volts
  if step.1.result.window_end_us ≠ 0 then
    let result := { rp.snapshot with last_window := step.1.result }
    let ab := rp.B_analyzer.AnalyzeBreath step.1.result result
    let breath_event := ab.2.2.2
    let out := { out0 with event := toStateEvent breath_event.State,
                           result := ab.2.2.1 }
    (out, { rp with W_analyzer := step.2, B_analyzer := ab.2.1,
                    snapshot := out.result, last_event := breath_event,
                    bHasEvent := true })
  else
    (out0, { rp with W_analyzer := step.2, snapshot := out0.result })

/-- `RuntimeProcess::pop_breath_event` (drain-style accessor over the single
pending-event slot). -/
def RuntimeProcess.pop_breath_event (rp : RuntimeProcess) :
    Option BreathEvent × RuntimeProcess :=
  if !rp.bHasEvent then (none, rp)
  else (some rp.last_event, { rp with bHasEvent := false })

/-- State of `CalibrationProcess`. -/
structure CalibrationProcess where
  analyzer : WelfordAnalyzer
  last_ : WindowResult := default

/-- `CalibrationProcess::on_batch`: terminates (`Done`) on the first stable
window. -/
def CalibrationProcess.on_batch (sqrtQ : ℚ → ℚ) (cp : CalibrationProcess)
    (samples : List Sample) : StepResult WindowResult × CalibrationProcess :=
  let step := cp.analyzer.AnalyzeBatch sqrtQ samples get_volts
  let cp := { cp with analyzer := step.2 }
  let cp := if step.1.result.window_end_us ≠ 0 then
    { cp with last_ := step.1.result } else cp
  if step.1.result.stable then
    ({ step.1 with action := StateAction.Done }, cp)
  else (step.1, cp)

/-- `CalibrationProcess::result`. -/
def CalibrationProcess.result (cp : CalibrationProcess) : WindowResult :=
  cp.last_

/-- `ProcessRunner::run`, embedded over explicit oracles: `drains i` is what
`pop_batch` returns on iteration `i`, `clockA i` / `clockB i` are the
monotonic-clock reads at the idle-path / tick-path timeout checks,
`running i` is the `g_running` flag read at the top of iteration `i`.
The processor is a state `σ` with its `on_batch` and `result` functions
(the `bEnableTimeout` trait is the boolean).  Returns `none` when `fuel`
iterations did not reach a return (the loop is still running), otherwise
the returned snapshot; the second component counts `on_process_event`
callback invocations. -/
def ProcessRunner_run {σ ρ : Type} (drains : Nat → List Sample)
    (clockA clockB : Nat → Nat) (running : Nat → Bool)
    (onBatch : σ → List Sample → StepResult ρ × σ) (resultOf : σ → ρ)
    (bEnableTimeout : Bool) (timeout start : Nat) :
    Nat → Nat → σ → Nat → Option ρ × Nat
  | 0, _i, _s, events => (none, events)
  | fuel + 1, i, s, events =>
    if running i = false then (some (resultOf s), events)
    else
      let samples := drains i
      if samples.length = 0 then
        if bEnableTimeout && decide (timeout ≤ clockA i - start) then
          (some (resultOf s), events)
        else
          ProcessRunner_run drains clockA clockB running onBatch resultOf
            bEnableTimeout timeout start fuel (i + 1) s events
      else
        let step := onBatch s samples
        let events' := if step.1.event ≠ StateEvent.None then events + 1
          else events
        match step.1.action with
        | StateAction.Done => (some (resultOf step.2), events')
        | StateAction.Abort => (some (resultOf step.2), events')
        | StateAction.Continue =>
          if bEnableTimeout && decide (timeout ≤ clockB i - start) then
            (some (resultOf step.2), events')
          else
            ProcessRunner_run drains clockA clockB running onBatch resultOf
              bEnableTimeout timeout start fuel (i + 1) step.2 events'

/-- Default breath-analyzer configuration from `config_settings.h`
(warmup/cooldown 25 windows, min/max blow 400ms/5s, rise/fall/ready
hysteresis 0.05/0.02/0.01 V, alpha 0.05, noise factors 3/3/2; note
`end_k_sigma` is also wired to `Rise_Noise_Factor`). -/
def defaultBreathCfg : BreathAnalyzer_Config :=
  ⟨25, 25, 400000, 5000000, 5 / 100, 2 / 100, 5 / 100, 3, 3, 1 / 100, 2⟩

theorem u64sub_of_le {a b : Nat} (hb : b ≤ a) (ha : a < 2 ^ 64) :
    u64sub a b = a - b := by
  unfold u64sub
  have hb' : b < 2 ^ 64 := lt_of_le_of_lt hb ha
  rw [Nat.mod_eq_of_lt ha, Nat.mod_eq_of_lt hb']
  have h1 : a + (2 ^ 64 - b) = (a - b) + 2 ^ 64 := by omega
  rw [h1, Nat.add_mod_right, Nat.mod_eq_of_lt (by omega)]

theorem ringPushInv_init (N : Nat) (l : List α) [Inhabited α] :
    RingPushInv N (SpscRing.init α) l 0 := by
  refine ⟨Nat.zero_le _, by simp [SpscRing.init], by simp [SpscRing.init], ?_⟩
  intro i h1 h2
  omega

/-- Distinct indices within a window of width `< N` stay distinct modulo `N`. -/
theorem mod_ne_of_window {i k N : Nat} (h1 : i < k) (h2 : k - i < N) :
    i % N ≠ k % N := by
  intro h
  have hik : i ≤ k := le_of_lt h1
  have : N ∣ k - i := (Nat.modEq_iff_dvd' hik).mp h
  have := Nat.le_of_dvd (by omega) this
  omega

theorem ringPushInv_step {α : Type} {N : Nat} (hN : 0 < N) {s : SpscRing α}
    {l : List α} {k : Nat} (hinv : RingPushInv N s l k) (hk : k < l.length)
    {v : α} (hv : l[k]? = some v) :
    RingPushInv N (s.push_overwrite N v).1 l (k + 1) ∧
      ((s.push_overwrite N v).2 = true ↔ k < N - 1) := by
  obtain ⟨hlen, hhead, htail, hbuf⟩ := hinv
  by_cases hcase : k < N - 1
  · -- ring not yet full: plain append
    have hmin : min k (N - 1) = k := by omega
    have hmin' : min (k + 1) (N - 1) = k + 1 := by omega
    have hk1 : (k + 1) % N = k + 1 := Nat.mod_eq_of_lt (by omega)
    have hfull : ¬ ((s.head + 1) % N = s.tail) := by
      rw [hhead, htail, Nat.mod_add_mod, hmin, hk1, Nat.sub_self, Nat.zero_mod]
      omega
    simp only [SpscRing.push_overwrite, if_neg hfull]
    refine ⟨⟨by omega, ?_, ?_, ?_⟩, by simp [hcase]⟩
    · rw [hhead, Nat.mod_add_mod]
    · rw [htail, hmin, hmin', Nat.sub_self, Nat.sub_self]
    · intro i h1 h2
      rcases Nat.lt_or_ge i k with hik | hik
      · have hne : i % N ≠ k % N := mod_ne_of_window hik (by omega)
        rw [← hhead] at hne
        simpa [hne] using hbuf i (by omega) hik
      · have hik' : i = k := by omega
        subst hik'
        simp [hhead, hv]
  · -- ring full: oldest element evicted first
    have hmin : min k (N - 1) = N - 1 := by omega
    have hmin' : min (k + 1) (N - 1) = N - 1 := by omega
    have hfull : (s.head + 1) % N = s.tail := by
      rw [hhead, htail, Nat.mod_add_mod, hmin]
      have hle : N ≤ k + 1 := by omega
      rw [Nat.mod_eq_sub_mod hle]
      congr 1
      omega
    simp only [SpscRing.push_overwrite, if_pos hfull]
    refine ⟨⟨by omega, ?_, ?_, ?_⟩, by simp [hcase]⟩
    · rw [hhead, Nat.mod_add_mod]
    · show (s.tail + 1) % N = (k + 1 - min (k + 1) (N - 1)) % N
      rw [htail, Nat.mod_add_mod, hmin, hmin']
      congr 1
      omega
    · intro i h1 h2
      rcases Nat.lt_or_ge i k with hik | hik
      · have hne : i % N ≠ k % N := mod_ne_of_window hik (by omega)
        rw [← hhead] at hne
        simpa [hne] using hbuf i (by omega) hik
      · have hik' : i = k := by omega
        subst hik'
        simp [hhead, hv]

theorem ringPushInv_all {α : Type} {N : Nat} (hN : 0 < N) {l : List α} :
    ∀ (rest : List α) (k : Nat) (s : SpscRing α), rest = l.drop k →
      RingPushInv N s l k →
      RingPushInv N (s.push_overwrite_all N rest).1 l l.length ∧
        (s.push_overwrite_all N rest).2 =
          l.length - max k (min l.length (N - 1)) := by
  intro rest
  induction rest with
  | nil =>
    intro k s hrest hinv
    have hlen : l.length - k = 0 := by
      have := congrArg List.length hrest
      simpa using this.symm
    have hk : k = l.length := by
      have := hinv.1
      omega
    subst hk
    refine ⟨by simpa [SpscRing.push_overwrite_all] using hinv, ?_⟩
    simp only [SpscRing.push_overwrite_all]
    omega
  | cons v vs ih =>
    intro k s hrest hinv
    have hlen : l.length - k = vs.length + 1 := by
      have := congrArg List.length hrest
      simpa using this.symm
    have hk : k < l.length := by omega
    have hv : l[k]? = some v := by
      have h0 : (l.drop k)[0]? = l[k]? := by
        rw [List.getElem?_drop]
        norm_num
      rw [← h0, ← hrest]
      simp
    have hvs : vs = l.drop (k + 1) := by
      have h1 : l.drop (k + 1) = (l.drop k).drop 1 := by
        rw [List.drop_drop]
      rw [h1, ← hrest]
      rfl
    obtain ⟨hinv', hok⟩ := ringPushInv_step hN hinv hk hv
    have IH := ih (k + 1) (s.push_overwrite N v).1 hvs hinv'
    refine ⟨by simpa [SpscRing.push_overwrite_all] using IH.1, ?_⟩
    simp only [SpscRing.push_overwrite_all]
    by_cases hcase : k < N - 1
    · have : (s.push_overwrite N v).2 = true := hok.mpr hcase
      rw [this]
      simp only [if_true]
      rw [IH.2]
      omega
    · have : (s.push_overwrite N v).2 = false := by
        cases hb : (s.push_overwrite N v).2
        · rfl
        · exact absurd (hok.mp hb) hcase
      rw [this]
      simp only [Bool.false_eq_true, if_false]
      rw [IH.2]
      omega

theorem ringPushInv_to_popInv {α : Type} {N : Nat} (hN : 0 < N)
    {s : SpscRing α} {l : List α} (hinv : RingPushInv N s l l.length) :
    RingPopInv N s l (l.length - min l.length (N - 1)) l.length := by
  obtain ⟨hlen, hhead, htail, hbuf⟩ := hinv
  exact ⟨by omega, by omega, le_refl _, hhead, htail, hbuf⟩

theorem pop_batch_of_popInv {α : Type} {N : Nat} (hN : 0 < N) {l : List α} :
    ∀ (m : Nat) (s : SpscRing α) (lo hi : Nat), RingPopInv N s l lo hi →
      hi - lo ≤ m → (s.pop_batch N m).1 = (l.drop lo).take (hi - lo) := by
  intro m
  induction m with
  | zero =>
    intro s lo hi hinv hm
    have : hi - lo = 0 := by omega
    simp [SpscRing.pop_batch, this]
  | succ m ih =>
    intro s lo hi hinv hm
    obtain ⟨h1, h2, h3, hhead, htail, hbuf⟩ := hinv
    rcases Nat.eq_or_lt_of_le h1 with heq | hlt
    · have hempty : s.tail = s.head := by rw [htail, hhead, heq]
      simp [SpscRing.pop_batch, SpscRing.pop, hempty, heq, Nat.sub_self]
    · have hne : s.tail ≠ s.head := by
        rw [htail, hhead]
        exact mod_ne_of_window hlt h2
      have hlo : l[lo]? = some (s.ring_buffer (lo % N)) :=
        hbuf lo (le_refl _) hlt
      have hlolen : lo < l.length := by omega
      have hgetlo : l[lo] = s.ring_buffer (lo % N) := by
        have := List.getElem?_eq_getElem hlolen
        rw [this] at hlo
        exact Option.some.inj hlo
      have hinv' : RingPopInv N ⟨s.ring_buffer, s.head, (s.tail + 1) % N⟩
          l (lo + 1) hi := by
        refine ⟨by omega, by omega, h3, hhead, ?_, ?_⟩
        · show (s.tail + 1) % N = (lo + 1) % N
          rw [htail, Nat.mod_add_mod]
        · intro i hi1 hi2
          exact hbuf i (by omega) hi2
      have IH := ih _ (lo + 1) hi hinv' (by omega)
      have hdrop : l.drop lo = l[lo] :: l.drop (lo + 1) :=
        List.drop_eq_getElem_cons hlolen
      have hsub : hi - lo = (hi - (lo + 1)) + 1 := by omega
      simp only [SpscRing.pop_batch, SpscRing.pop, if_neg hne]
      rw [hdrop, hsub, List.take_succ_cons, IH, hgetlo, htail]

theorem ring_push_then_drain {α : Type} [Inhabited α] {N : Nat} (hN : 0 < N)
    (l : List α) {m : Nat} (hm : min l.length (N - 1) ≤ m) :
    (((SpscRing.init α).push_overwrite_all N l).1.pop_batch N m).1 =
      l.drop (l.length - min l.length (N - 1)) := by
  have hall := ringPushInv_all hN l 0 (SpscRing.init α) (by simp)
    (ringPushInv_init N l)
  have hpop := ringPushInv_to_popInv hN hall.1
  have hlen : l.length - (l.length - min l.length (N - 1)) =
      min l.length (N - 1) := by omega
  have := pop_batch_of_popInv hN m _ _ _ hpop (by omega)
  rw [this, hlen]
  have hfull : (l.drop (l.length - min l.length (N - 1))).length =
      min l.length (N - 1) := by
    rw [List.length_drop]
    omega
  exact List.take_of_length_le (le_of_eq hfull)

theorem ring_push_overwrite_count {α : Type} [Inhabited α] {N : Nat}
    (hN : 0 < N) (l : List α) :
    ((SpscRing.init α).push_overwrite_all N l).2 =
      l.length - min l.length (N - 1) := by
  have hall := ringPushInv_all hN l 0 (SpscRing.init α) (by simp)
    (ringPushInv_init N l)
  rw [hall.2]
  omega

/-- Claim C1 (counterexample): pushing the 3 values `[1, 2, 3]` through
`push_overwrite` into an empty `SpscRing` of capacity `C = 2` and draining
does NOT yield the last `C = 2` pushed values `[2, 3]` — the ring keeps at
most `C - 1` unread elements. -/
theorem claim_C1_counterexample :
    (((SpscRing.init Nat).push_overwrite_all 2 [1, 2, 3]).1.pop_batch 2 3).1 ≠
      [2, 3] := by
  decide

/-- Claim C1 (amended): for every sequence of `N` pushes via `push_overwrite`
into an initially empty `SpscRing` of power-of-two capacity `C` with
`C < N`, a full drain by repeated `pop` yields exactly the last `C - 1`
pushed values (not `C`: the full condition `(head+1) % C == tail` leaves one
slot unused), in their original relative order. -/
theorem claim_C1_theorem {α : Type} [Inhabited α] (C : Nat)
    (hpow : ∃ k, C = 2 ^ k) (l : List α) (hlen : C < l.length) (m : Nat)
    (hm : C - 1 ≤ m) :
    (((SpscRing.init α).push_overwrite_all C l).1.pop_batch C m).1 =
      l.drop (l.length - (C - 1)) := by
  obtain ⟨k, rfl⟩ := hpow
  have hC : 0 < 2 ^ k := Nat.pos_pow_of_pos k (by omega)
  have hmin : min l.length (2 ^ k - 1) = 2 ^ k - 1 := by omega
  rw [ring_push_then_drain hC l (by omega), hmin]

/-- Claim C1 (witness): capacity `C = 4`, pushes `[1,2,3,4,5]`; the drain
yields the last `C - 1 = 3` values `[3, 4, 5]`. -/
theorem claim_C1_witness :
    (∃ k, (4 : Nat) = 2 ^ k) ∧ 4 < ([1, 2, 3, 4, 5] : List Nat).length ∧
      (((SpscRing.init Nat).push_overwrite_all 4 [1, 2, 3, 4, 5]).1.pop_batch
          4 5).1 = [3, 4, 5] :=
  ⟨⟨2, by norm_num⟩, by norm_num, by
    have h := claim_C1_theorem (α := Nat) 4 ⟨2, by norm_num⟩
      [1, 2, 3, 4, 5] (by norm_num) 5 (by norm_num)
    rw [h]
    decide⟩

/-- Claim C5 (counterexample): pushing `M = C = 2` values `[1, 2]` into an
empty ring of capacity `C = 2` reports an overwrite eviction (the second
push returns `false`) and the drain yields `[2]`, not both values. -/
theorem claim_C5_counterexample :
    ((SpscRing.init Nat).push_overwrite_all 2 [1, 2]).2 ≠ 0 ∧
      (((SpscRing.init Nat).push_overwrite_all 2 [1, 2]).1.pop_batch 2 2).1 ≠
        [1, 2] := by
  constructor
  · decide
  · decide

/-- Claim C5 (amended): for every `M ≤ C - 1` (not `M ≤ C`), pushing `M`
values via `push_overwrite` into an initially empty `SpscRing` of
power-of-two capacity `C` reports success for every push (zero evictions),
and draining yields exactly those `M` values in order. -/
theorem claim_C5_theorem {α : Type} [Inhabited α] (C : Nat)
    (hpow : ∃ k, C = 2 ^ k) (l : List α) (hlen : l.length ≤ C - 1) (m : Nat)
    (hm : l.length ≤ m) :
    ((SpscRing.init α).push_overwrite_all C l).2 = 0 ∧
      (((SpscRing.init α).push_overwrite_all C l).1.pop_batch C m).1 = l := by
  obtain ⟨k, rfl⟩ := hpow
  have hC : 0 < 2 ^ k := Nat.pos_pow_of_pos k (by omega)
  have hmin : min l.length (2 ^ k - 1) = l.length := by omega
  constructor
  · rw [ring_push_overwrite_count hC l, hmin]
    omega
  · rw [ring_push_then_drain hC l (by omega), hmin]
    simp

/-- Claim C5 (witness): capacity `C = 4`, pushes `[1, 2, 3]`; all pushes
succeed and the drain returns `[1, 2, 3]`. -/
theorem claim_C5_witness :
    ([1, 2, 3] : List Nat).length ≤ 4 - 1 ∧
      ((SpscRing.init Nat).push_overwrite_all 4 [1, 2, 3]).2 = 0 ∧
      (((SpscRing.init Nat).push_overwrite_all 4 [1, 2, 3]).1.pop_batch
          4 3).1 = [1, 2, 3] := by
  refine ⟨by norm_num, ?_, ?_⟩
  · exact (claim_C5_theorem (α := Nat) 4 ⟨2, by norm_num⟩ [1, 2, 3]
      (by norm_num) 3 (le_refl 3)).1
  · exact (claim_C5_theorem (α := Nat) 4 ⟨2, by norm_num⟩ [1, 2, 3]
      (by norm_num) 3 (le_refl 3)).2

theorem sumSq_append (l₁ l₂ : List ℚ) :
    sumSq (l₁ ++ l₂) = sumSq l₁ + sumSq l₂ := by
  simp [sumSq]

theorem sum_sub_sq (l : List ℚ) (c : ℚ) :
    (l.map (fun x => (x - c) ^ 2)).sum =
      sumSq l - 2 * c * l.sum + (l.length : ℚ) * c ^ 2 := by
  induction l with
  | nil => simp [sumSq]
  | cons x xs ih =>
    simp only [List.map_cons, List.sum_cons, List.length_cons, ih, sumSq,
      Nat.cast_add, Nat.cast_one]
    ring

/-- Welford invariant: after pushing `l` from the zero state, `mean` is the
running mean and `m2` the centred sum of squares, written in the
division-safe form `S2 - S1^2 / n` (with `ℚ`'s `x / 0 = 0` matching the
zero-initialised state). -/
theorem welford_invariant (l : List ℚ) :
    (WelfordStats.init.pushAll l).num_samples = l.length ∧
      (WelfordStats.init.pushAll l).mean = l.sum / (l.length : ℚ) ∧
      (WelfordStats.init.pushAll l).m2 =
        sumSq l - l.sum ^ 2 / (l.length : ℚ) := by
  induction l using List.reverseRecOn with
  | nil => simp [WelfordStats.pushAll, WelfordStats.init, sumSq]
  | append_singleton xs x ih =>
    obtain ⟨hn, hmean, hm2⟩ := ih
    have hfold : WelfordStats.init.pushAll (xs ++ [x]) =
        (WelfordStats.init.pushAll xs).push x := by
      simp [WelfordStats.pushAll]
    rw [hfold]
    set s := WelfordStats.init.pushAll xs with hs
    rcases Nat.eq_zero_or_pos xs.length with hzero | hpos
    · have hxs : xs = [] := List.length_eq_zero.mp hzero
      subst hxs
      simp only [WelfordStats.push, hn, hmean, hm2]
      norm_num [sumSq]
    · have hne : ((xs.length : ℚ)) ≠ 0 := by
        exact_mod_cast Nat.pos_iff_ne_zero.mp hpos
      have hne1 : ((xs.length : ℚ)) + 1 ≠ 0 := by positivity
      refine ⟨by simp [WelfordStats.push, hn], ?_, ?_⟩
      · simp only [WelfordStats.push, hn, hmean]
        push_cast
        rw [List.sum_append, List.length_append]
        push_cast
        field_simp
        ring
      · simp only [WelfordStats.push, hn, hmean, hm2]
        push_cast
        rw [List.sum_append, List.length_append, sumSq_append]
        push_cast
        simp only [List.sum_cons, List.sum_nil, sumSq, List.map_cons,
          List.map_nil]
        field_simp
        ring

/-- Claim C3: for every finite sequence of values, the incremental statistics
maintained by `WelfordStats` (count, mean, and `m2` with sample variance
`m2 / (count - 1)` for `count > 1`, else `0`) equal the direct two-pass mean
and sample variance of the sequence, exactly, in exact rational
arithmetic. -/
theorem claim_C3_theorem (l : List ℚ) :
    (WelfordStats.init.pushAll l).num_samples = l.length ∧
      (WelfordStats.init.pushAll l).mean = twoPassMean l ∧
      (WelfordStats.init.pushAll l).variance_sample = twoPassVariance l := by
  obtain ⟨hn, hmean, hm2⟩ := welford_invariant l
  refine ⟨hn, hmean, ?_⟩
  rw [WelfordStats.variance_sample, twoPassVariance, hn]
  by_cases hlen : 1 < l.length
  · rw [if_pos hlen, if_pos hlen, hm2, sum_sub_sq, twoPassMean]
    have hne : ((l.length : ℚ)) ≠ 0 := Nat.cast_ne_zero.mpr (by omega)
    have hcast : ((l.length - 1 : Nat) : ℚ) = (l.length : ℚ) - 1 := by
      have h1 : 1 ≤ l.length := le_of_lt hlen
      push_cast [h1]
      ring
    rw [hcast]
    congr 1
    field_simp
    ring
  · rw [if_neg hlen, if_neg hlen]

/-- Claim C2 (counterexample): with a first sample at `t = 0`, the lazy
window-start initialisation (`if (window_start_micro_sec == 0)`) treats the
window start as still unset, so a subsequent sample at `t = 1_000_000`
re-seeds the window start instead of finalizing: no window is finalized at
all, contradicting "finalizes exactly one window with `window_start = 0`". -/
theorem claim_C2_counterexample :
    ((((WelfordAnalyzer.mkInit defaultAnalyzerCfg).AnalyzeSampleCore sqrtQ0
        0 1).2).AnalyzeSampleCore sqrtQ0 1000000 1).1.length = 0 := by
  decide

/-- Claim C6 (counterexample): a finalized window that accumulated fewer
than `min_window_sample_size` samples (here 1 sample of value 5, against a
minimum of 80) leaves `prev_window_mean` untouched (`none`, the NaN
sentinel) instead of updating it to the just-finalized mean 5. -/
theorem claim_C6_counterexample :
    (let r := (((WelfordAnalyzer.mkInit defaultAnalyzerCfg).AnalyzeSampleCore
        sqrtQ0 1 5).2).AnalyzeSampleCore sqrtQ0 1000001 1
     r.1.length = 1 ∧ r.2.prev_window_mean = none) := by
  constructor
  · decide
  · decide

/-- Claim C6 (amended): `FinalizeWindow` updates the stored prior mean to
the just-finalized window's mean exactly when the window accumulated at
least `min_window_sample_size` samples; an underfilled window returns early
and leaves `prev_window_mean` unchanged, so the next drift computation is
against the last sufficiently-filled window's mean. -/
theorem claim_C6_theorem (sqrtQ : ℚ → ℚ) (a : WelfordAnalyzer) :
    (a.FinalizeWindow sqrtQ).2.prev_window_mean =
      (if a.cfg.min_window_sample_size ≤ a.WfS.num_samples then
        some a.WfS.mean else a.prev_window_mean) := by
  by_cases h : a.WfS.num_samples < a.cfg.min_window_sample_size
  · rw [if_neg (by omega)]
    simp [WelfordAnalyzer.FinalizeWindow, h]
  · rw [if_pos (by omega)]
    simp [WelfordAnalyzer.FinalizeWindow, h]

theorem FinalizeWindow_fields (sqrtQ : ℚ → ℚ) (a : WelfordAnalyzer) :
    (a.FinalizeWindow sqrtQ).1.result.window_start_us =
        a.window_start_micro_sec ∧
      (a.FinalizeWindow sqrtQ).1.result.window_end_us =
        (a.window_start_micro_sec + a.cfg.window_micro) % 2 ^ 64 ∧
      (a.FinalizeWindow sqrtQ).2.window_start_micro_sec =
        a.window_start_micro_sec ∧
      (a.FinalizeWindow sqrtQ).2.cfg = a.cfg := by
  by_cases h : a.WfS.num_samples < a.cfg.min_window_sample_size <;>
    simp [WelfordAnalyzer.FinalizeWindow, h]

theorem finalizeLoop_stop (sqrtQ : ℚ → ℚ) (fuel : Nat) (a : WelfordAnalyzer)
    (t : Nat)
    (h : ¬ (0 < a.cfg.window_micro ∧
      a.cfg.window_micro ≤ u64sub t a.window_start_micro_sec)) :
    finalizeLoop sqrtQ fuel a t = ([], a) := by
  cases fuel <;> simp [finalizeLoop, h]

theorem finalizeLoop_succ (sqrtQ : ℚ → ℚ) (fuel : Nat) (a : WelfordAnalyzer)
    (t : Nat)
    (h : 0 < a.cfg.window_micro ∧
      a.cfg.window_micro ≤ u64sub t a.window_start_micro_sec) :
    finalizeLoop sqrtQ (fuel + 1) a t =
      ((a.FinalizeWindow sqrtQ).1 ::
        (finalizeLoop sqrtQ fuel
          { (a.FinalizeWindow sqrtQ).2 with
            window_start_micro_sec :=
              ((a.FinalizeWindow sqrtQ).2.window_start_micro_sec +
                (a.FinalizeWindow sqrtQ).2.cfg.window_micro) % 2 ^ 64,
            WfS := (a.FinalizeWindow sqrtQ).2.WfS.reset } t).1,
       (finalizeLoop sqrtQ fuel
          { (a.FinalizeWindow sqrtQ).2 with
            window_start_micro_sec :=
              ((a.FinalizeWindow sqrtQ).2.window_start_micro_sec +
                (a.FinalizeWindow sqrtQ).2.cfg.window_micro) % 2 ^ 64,
            WfS := (a.FinalizeWindow sqrtQ).2.WfS.reset } t).2) := by
  simp [finalizeLoop, h]

/-- Grid behaviour of the finalize loop at the 1-second window duration of
the claim: when `k` whole windows fit between the current window start and
the new timestamp, exactly `k` windows are finalized, grid-aligned at
`window_start + i * 1_000_000`, and the window start advances by exactly
`k` window durations. -/
theorem finalizeLoop_grid (sqrtQ : ℚ → ℚ) (t : Nat) (ht : t < 2 ^ 64) :
    ∀ (k fuel : Nat) (a : WelfordAnalyzer),
      a.cfg.window_micro = 1000000 →
      a.window_start_micro_sec + k * 1000000 ≤ t →
      t < a.window_start_micro_sec + (k + 1) * 1000000 →
      k < fuel →
      (finalizeLoop sqrtQ fuel a t).1.map
          (fun st => (st.result.window_start_us, st.result.window_end_us)) =
        (List.range k).map (fun i =>
          (a.window_start_micro_sec + i * 1000000,
           a.window_start_micro_sec + (i + 1) * 1000000)) ∧
      (finalizeLoop sqrtQ fuel a t).2.window_start_micro_sec =
        a.window_start_micro_sec + k * 1000000 ∧
      (finalizeLoop sqrtQ fuel a t).2.cfg = a.cfg := by
  intro k
  induction k with
  | zero =>
    intro fuel a hw hlow hhigh _hfuel
    have hle : a.window_start_micro_sec ≤ t := by omega
    have hsub : u64sub t a.window_start_micro_sec =
        t - a.window_start_micro_sec := u64sub_of_le hle ht
    have hguard : ¬ (0 < a.cfg.window_micro ∧
        a.cfg.window_micro ≤ u64sub t a.window_start_micro_sec) := by
      rw [hsub, hw]
      omega
    rw [finalizeLoop_stop sqrtQ fuel a t hguard]
    simp
  | succ k ih =>
    intro fuel a hw hlow hhigh hfuel
    obtain ⟨f, rfl⟩ : ∃ f, fuel = f + 1 := ⟨fuel - 1, by omega⟩
    have hle : a.window_start_micro_sec ≤ t := by omega
    have hsub : u64sub t a.window_start_micro_sec =
        t - a.window_start_micro_sec := u64sub_of_le hle ht
    have hguard : 0 < a.cfg.window_micro ∧
        a.cfg.window_micro ≤ u64sub t a.window_start_micro_sec := by
      rw [hsub, hw]
      omega
    obtain ⟨hrs, hre, hws, hcfg⟩ := FinalizeWindow_fields sqrtQ a
    rw [finalizeLoop_succ sqrtQ f a t hguard]
    set b := { (a.FinalizeWindow sqrtQ).2 with
        window_start_micro_sec :=
          ((a.FinalizeWindow sqrtQ).2.window_start_micro_sec +
            (a.FinalizeWindow sqrtQ).2.cfg.window_micro) % 2 ^ 64,
        WfS := (a.FinalizeWindow sqrtQ).2.WfS.reset } with hb
    have hbws : b.window_start_micro_sec =
        a.window_start_micro_sec + 1000000 := by
      rw [hb]
      show ((a.FinalizeWindow sqrtQ).2.window_start_micro_sec +
        (a.FinalizeWindow sqrtQ).2.cfg.window_micro) % 2 ^ 64 = _
      rw [hws, hcfg, hw]
      exact Nat.mod_eq_of_lt (by omega)
    have hbcfg : b.cfg = a.cfg := by
      rw [hb]
      show (a.FinalizeWindow sqrtQ).2.cfg = a.cfg
      exact hcfg
    have IH := ih f b (by rw [hbcfg, hw]) (by rw [hbws]; omega)
      (by rw [hbws]; omega) (by omega)
    rw [hbws, hbcfg] at IH
    refine ⟨?_, by rw [IH.2.1]; omega, IH.2.2⟩
    rw [List.map_cons, IH.1, hrs, hre, hw, List.range_succ_eq_map,
      List.map_cons, List.map_map]
    have hmod : (a.window_start_micro_sec + 1000000) % 2 ^ 64 =
        a.window_start_micro_sec + 1000000 := Nat.mod_eq_of_lt (by omega)
    rw [hmod]
    refine congrArg₂ List.cons ?_ ?_
    · norm_num
    · apply List.map_congr_left
      intro i _
      simp only [Function.comp_apply, Prod.mk.injEq]
      omega

theorem AnalyzeSampleCore_proj (sqrtQ : ℚ → ℚ) (a : WelfordAnalyzer)
    (t : Nat) (v : ℚ) :
    (a.AnalyzeSampleCore sqrtQ t v).1 =
        (finalizeLoop sqrtQ
          (u64sub t (if a.window_start_micro_sec = 0 then
              { a with window_start_micro_sec := t } else
              a).window_start_micro_sec /
            max 1 (if a.window_start_micro_sec = 0 then
              { a with window_start_micro_sec := t } else
              a).cfg.window_micro + 1)
          (if a.window_start_micro_sec = 0 then
            { a with window_start_micro_sec := t } else a) t).1 ∧
      (a.AnalyzeSampleCore sqrtQ t v).2.window_start_micro_sec =
        (finalizeLoop sqrtQ
          (u64sub t (if a.window_start_micro_sec = 0 then
              { a with window_start_micro_sec := t } else
              a).window_start_micro_sec /
            max 1 (if a.window_start_micro_sec = 0 then
              { a with window_start_micro_sec := t } else
              a).cfg.window_micro + 1)
          (if a.window_start_micro_sec = 0 then
            { a with window_start_micro_sec := t } else a) t).2.window_start_micro_sec ∧
      (a.AnalyzeSampleCore sqrtQ t v).2.cfg =
        (finalizeLoop sqrtQ
          (u64sub t (if a.window_start_micro_sec = 0 then
              { a with window_start_micro_sec := t } else
              a).window_start_micro_sec /
            max 1 (if a.window_start_micro_sec = 0 then
              { a with window_start_micro_sec := t } else
              a).cfg.window_micro + 1)
          (if a.window_start_micro_sec = 0 then
            { a with window_start_micro_sec := t } else a) t).2.cfg :=
  ⟨rfl, rfl, rfl⟩

/-- Per-call window bookkeeping of `AnalyzeSample` at a 1-second window
duration, for an analyzer whose window start is already seeded at `W > 0`:
exactly `k` windows finalize, grid-aligned at `W + i * 1_000_000`. -/
theorem AnalyzeSampleCore_grid (sqrtQ : ℚ → ℚ) {cfg : Analyzer_Config}
    (hw : cfg.window_micro = 1000000) (W t k : Nat) {a : WelfordAnalyzer}
    (v : ℚ) (ha_ws : a.window_start_micro_sec = W) (ha_cfg : a.cfg = cfg)
    (hW : 0 < W) (ht : t < 2 ^ 64) (hlow : W + k * 1000000 ≤ t)
    (hhigh : t < W + (k + 1) * 1000000) :
    (a.AnalyzeSampleCore sqrtQ t v).1.map
        (fun st => (st.result.window_start_us, st.result.window_end_us)) =
      (List.range k).map (fun i =>
        (W + i * 1000000, W + (i + 1) * 1000000)) ∧
    (a.AnalyzeSampleCore sqrtQ t v).2.window_start_micro_sec =
      W + k * 1000000 ∧
    (a.AnalyzeSampleCore sqrtQ t v).2.cfg = cfg := by
  have h0 : ¬ a.window_start_micro_sec = 0 := by omega
  obtain ⟨hp1, hp2, hp3⟩ := AnalyzeSampleCore_proj sqrtQ a t v
  rw [if_neg h0] at hp1 hp2 hp3
  have hWt : W ≤ t := by omega
  have hsub : u64sub t a.window_start_micro_sec = t - W := by
    rw [ha_ws]
    exact u64sub_of_le hWt ht
  have hmax : max 1 (1000000 : Nat) = 1000000 := by norm_num
  have hfuel : k < u64sub t a.window_start_micro_sec /
      max 1 a.cfg.window_micro + 1 := by
    rw [hsub, ha_cfg, hw, hmax]
    have hk : k * 1000000 ≤ t - W := by omega
    have := (Nat.le_div_iff_mul_le (by norm_num)).mpr hk
    omega
  have hgrid := finalizeLoop_grid sqrtQ t ht k
    (u64sub t a.window_start_micro_sec / max 1 a.cfg.window_micro + 1) a
    (by rw [ha_cfg, hw]) (by rw [ha_ws]; omega) (by rw [ha_ws]; omega) hfuel
  refine ⟨?_, ?_, ?_⟩
  · rw [hp1, hgrid.1, ha_ws]
  · rw [hp2, hgrid.2.1, ha_ws]
  · rw [hp3, hgrid.2.2, ha_cfg]

/-- First call of `AnalyzeSample` on a freshly reset analyzer: the lazy
initialisation seeds the window start with the sample's timestamp and no
window finalizes. -/
theorem AnalyzeSampleCore_first (sqrtQ : ℚ → ℚ) {cfg : Analyzer_Config}
    (hw : cfg.window_micro = 1000000) (t0 : Nat) (v : ℚ) (ht : t0 < 2 ^ 64) :
    ((WelfordAnalyzer.mkInit cfg).AnalyzeSampleCore sqrtQ t0 v).1.length = 0 ∧
    ((WelfordAnalyzer.mkInit cfg).AnalyzeSampleCore sqrtQ t0
        v).2.window_start_micro_sec = t0 ∧
    ((WelfordAnalyzer.mkInit cfg).AnalyzeSampleCore sqrtQ t0 v).2.cfg = cfg := by
  obtain ⟨hp1, hp2, hp3⟩ :=
    AnalyzeSampleCore_proj sqrtQ (WelfordAnalyzer.mkInit cfg) t0 v
  have h0 : (WelfordAnalyzer.mkInit cfg).window_start_micro_sec = 0 := rfl
  have hseed : ({ WelfordAnalyzer.mkInit cfg with
      window_start_micro_sec := t0 } : WelfordAnalyzer).window_start_micro_sec
      = t0 := rfl
  have hseedcfg : ({ WelfordAnalyzer.mkInit cfg with
      window_start_micro_sec := t0 } : WelfordAnalyzer).cfg = cfg := rfl
  rw [if_pos h0] at hp1 hp2 hp3
  have hgrid := finalizeLoop_grid sqrtQ t0 ht 0
    (u64sub t0 ({ WelfordAnalyzer.mkInit cfg with
        window_start_micro_sec := t0 } : WelfordAnalyzer).window_start_micro_sec /
      max 1 ({ WelfordAnalyzer.mkInit cfg with
        window_start_micro_sec := t0 } : WelfordAnalyzer).cfg.window_micro + 1)
    ({ WelfordAnalyzer.mkInit cfg with window_start_micro_sec := t0 })
    (by rw [hseedcfg, hw]) (by rw [hseed]; omega) (by rw [hseed]; omega)
    (Nat.succ_pos _)
  refine ⟨?_, ?_, ?_⟩
  · have hlen := congrArg List.length hgrid.1
    rw [List.length_map, List.length_map] at hlen
    rw [hp1, hlen]
    simp
  · rw [hp2, hgrid.2.1, hseed]
    omega
  · rw [hp3, hgrid.2.2, hseedcfg]

/-- Claim C2 (amended): with the first sample at any positive timestamp
`t0` (the `window_start == 0` sentinel mistakes a `t = 0` sample for an
unseeded window, see the counterexample), at a 1-second window duration:
samples at `t0` and `t0 + 999_999` finalize no window; a sample at
`t0 + 1_000_000` then finalizes exactly one window with
`window_start = t0`, `window_end = t0 + 1_000_000`; and a gap jumping from
`t0` to `t0 + 3_500_000` finalizes exactly 3 windows grid-aligned at starts
`t0`, `t0 + 1_000_000`, `t0 + 2_000_000` before the new sample is accepted
into the fourth window. -/
theorem claim_C2_theorem (sqrtQ : ℚ → ℚ) (cfg : Analyzer_Config)
    (hw : cfg.window_micro = 1000000) (t0 : Nat) (v0 v1 v2 v3 : ℚ)
    (ht0 : 0 < t0) (hbound : t0 + 3500000 < 2 ^ 64) :
    ((WelfordAnalyzer.mkInit cfg).AnalyzeSampleCore sqrtQ t0 v0).1.length
        = 0 ∧
    ((((WelfordAnalyzer.mkInit cfg).AnalyzeSampleCore sqrtQ t0
        v0).2.AnalyzeSampleCore sqrtQ (t0 + 999999) v1).1.length = 0) ∧
    (((((WelfordAnalyzer.mkInit cfg).AnalyzeSampleCore sqrtQ t0
        v0).2.AnalyzeSampleCore sqrtQ (t0 + 999999) v1).2.AnalyzeSampleCore
        sqrtQ (t0 + 1000000) v2).1.map
        (fun st => (st.result.window_start_us, st.result.window_end_us)) =
      [(t0, t0 + 1000000)]) ∧
    ((((WelfordAnalyzer.mkInit cfg).AnalyzeSampleCore sqrtQ t0
        v0).2.AnalyzeSampleCore sqrtQ (t0 + 3500000) v3).1.map
        (fun st => (st.result.window_start_us, st.result.window_end_us)) =
      [(t0, t0 + 1000000), (t0 + 1000000, t0 + 2000000),
       (t0 + 2000000, t0 + 3000000)]) := by
  obtain ⟨hf1, hfws, hfcfg⟩ :=
    AnalyzeSampleCore_first sqrtQ hw t0 v0 (by omega)
  obtain ⟨hg1, hgws, hgcfg⟩ := AnalyzeSampleCore_grid sqrtQ hw
    t0 (t0 + 999999) 0 v1 hfws hfcfg ht0 (by omega) (by omega) (by omega)
  have hgws' : (((WelfordAnalyzer.mkInit cfg).AnalyzeSampleCore sqrtQ t0
      v0).2.AnalyzeSampleCore sqrtQ (t0 + 999999)
      v1).2.window_start_micro_sec = t0 := by
    rw [hgws]
    omega
  obtain ⟨hh1, _hhws, _hhcfg⟩ := AnalyzeSampleCore_grid sqrtQ hw
    t0 (t0 + 1000000) 1 v2 hgws' hgcfg ht0 (by omega) (by omega) (by omega)
  obtain ⟨hj1, _hjws, _hjcfg⟩ := AnalyzeSampleCore_grid sqrtQ hw
    t0 (t0 + 3500000) 3 v3 hfws hfcfg ht0 (by omega) (by omega) (by omega)
  refine ⟨hf1, ?_, ?_, ?_⟩
  · have := congrArg List.length hg1
    rw [List.length_map, List.length_map] at this
    rw [this]
    simp
  · rw [hh1]
    simp [List.range_succ]
  · rw [hj1]
    simp [List.range_succ]

/-- Claim C2 (witness): the amended grid property instantiated at `t0 = 1`
with the default configuration. -/
theorem claim_C2_witness :
    defaultAnalyzerCfg.window_micro = 1000000 ∧ (0 : Nat) < 1 ∧
      (1 : Nat) + 3500000 < 2 ^ 64 ∧
      (((WelfordAnalyzer.mkInit defaultAnalyzerCfg).AnalyzeSampleCore sqrtQ0
          1 1).1.length = 0 ∧
        ((((WelfordAnalyzer.mkInit defaultAnalyzerCfg).AnalyzeSampleCore
            sqrtQ0 1 1).2.AnalyzeSampleCore sqrtQ0 (1 + 999999) 1).1.length
          = 0) ∧
        (((((WelfordAnalyzer.mkInit defaultAnalyzerCfg).AnalyzeSampleCore
            sqrtQ0 1 1).2.AnalyzeSampleCore sqrtQ0 (1 + 999999)
            1).2.AnalyzeSampleCore sqrtQ0 (1 + 1000000) 1).1.map
            (fun st => (st.result.window_start_us, st.result.window_end_us)) =
          [(1, 1 + 1000000)]) ∧
        ((((WelfordAnalyzer.mkInit defaultAnalyzerCfg).AnalyzeSampleCore
            sqrtQ0 1 1).2.AnalyzeSampleCore sqrtQ0 (1 + 3500000) 1).1.map
            (fun st => (st.result.window_start_us, st.result.window_end_us)) =
          [(1, 1 + 1000000), (1 + 1000000, 1 + 2000000),
           (1 + 2000000, 1 + 3000000)])) :=
  ⟨rfl, by norm_num, by norm_num,
   claim_C2_theorem sqrtQ0 defaultAnalyzerCfg rfl 1 1 1 1 1 (by norm_num)
     (by norm_num)⟩

/-- Claim C4 (counterexample): with `warmup_stable_windows = 2`, the very
first stable window already transitions the machine to `Ready` — the first
stable window is counted twice (`baseline_stable_count` is set to 1 and
then incremented again), so the transition fires one stable window early,
not on the 2nd as the claim states. -/
theorem claim_C4_counterexample :
    ((BreathAnalyzer.mkInit
        { defaultBreathCfg with warmup_stable_windows := 2 }).AnalyzeBreath
        ⟨true, 1, 0, some 0, 0, 1, 2⟩ {}).2.1.breath_state =
      BreathAnalyzerState.Ready := by
  decide

theorem UpdateBaseline_bcfg (b : BreathAnalyzer) (w : WindowResult)
    (res : BreathResult) : (b.UpdateBaseline w res).1.bcfg = b.bcfg := by
  unfold BreathAnalyzer.UpdateBaseline
  dsimp only
  split_ifs <;> rfl

theorem Warmup_bcfg (b : BreathAnalyzer) : b.Warmup.2.bcfg = b.bcfg := by
  unfold BreathAnalyzer.Warmup
  split_ifs <;> rfl

theorem Ready_bcfg (b : BreathAnalyzer) (w : WindowResult)
    (res : BreathResult) (th : ℚ) : (b.Ready w res th).2.1.bcfg = b.bcfg := by
  unfold BreathAnalyzer.Ready
  dsimp only
  split_ifs <;> rfl

theorem Processing_bcfg (b : BreathAnalyzer) (w : WindowResult)
    (res : BreathResult) (th : ℚ) (ev : BreathEvent) :
    (b.Processing w res th ev).2.1.bcfg = b.bcfg := by
  unfold BreathAnalyzer.Processing
  dsimp only
  split_ifs <;> rfl

theorem Cooldown_bcfg (b : BreathAnalyzer) (w : WindowResult)
    (res : BreathResult) (th : ℚ) :
    (b.Cooldown w res th).2.1.bcfg = b.bcfg := by
  unfold BreathAnalyzer.Cooldown
  dsimp only
  split_ifs <;> rfl

theorem AnalyzeBreath_bcfg (b : BreathAnalyzer) (w : WindowResult)
    (res : BreathResult) : (b.AnalyzeBreath w res).2.1.bcfg = b.bcfg := by
  unfold BreathAnalyzer.AnalyzeBreath
  dsimp only
  by_cases he : w.window_end_us = 0
  · simp [he]
  · rw [if_neg he]
    by_cases hwu : b.bWarmedup
    · simp only [hwu, Bool.not_true, Bool.false_eq_true, if_false]
      cases hst : b.breath_state
      all_goals simp only [hst]
      all_goals first
        | rfl
        | (rw [Ready_bcfg, UpdateBaseline_bcfg])
        | (rw [Processing_bcfg])
        | (rw [Cooldown_bcfg, UpdateBaseline_bcfg])
    · simp only [hwu, Bool.not_false, if_true]
      rw [Warmup_bcfg, UpdateBaseline_bcfg]

theorem warmup_step_stable (b : BreathAnalyzer) (res : BreathResult)
    (w : WindowResult) (hst : w.stable = true) (he : w.window_end_us ≠ 0)
    (hwarm : b.bWarmedup = false) :
    (if b.bcfg.warmup_stable_windows ≤
        (if b.bFoundbaseline = true then b.baseline_stable_count else 1) +
          1 then
      (b.AnalyzeBreath w res).2.1.breath_state = BreathAnalyzerState.Ready ∧
        (b.AnalyzeBreath w res).2.1.bWarmedup = true
    else
      (b.AnalyzeBreath w res).2.1.breath_state =
          BreathAnalyzerState.Warmup ∧
        (b.AnalyzeBreath w res).2.1.bWarmedup = false ∧
        (b.AnalyzeBreath w res).2.1.bFoundbaseline = true ∧
        (b.AnalyzeBreath w res).2.1.baseline_stable_count =
          (if b.bFoundbaseline = true then b.baseline_stable_count else 1) +
            1) := by
  unfold BreathAnalyzer.AnalyzeBreath
  dsimp only
  rw [if_neg he]
  simp only [hwarm, Bool.not_false, if_true]
  unfold BreathAnalyzer.UpdateBaseline BreathAnalyzer.Warmup
  dsimp only
  by_cases hf : b.bFoundbaseline = true
  · simp only [hst, hf, hwarm, Bool.not_true, Bool.not_false,
      Bool.false_eq_true, if_false, if_true]
    split_ifs <;> (try simp_all) <;> omega
  · have hf' : b.bFoundbaseline = false := by
      cases hb : b.bFoundbaseline
      · rfl
      · exact absurd hb hf
    simp only [hst, hf', hwarm, Bool.not_true, Bool.not_false,
      Bool.false_eq_true, if_false, if_true]
    split_ifs <;> (try simp_all) <;> omega

theorem feed_append (l1 l2 : List WindowResult) :
    ∀ (b : BreathAnalyzer) (res : BreathResult),
      b.feed res (l1 ++ l2) =
        (b.feed res l1).1.feed (b.feed res l1).2 l2 := by
  induction l1 with
  | nil => intro b res; rfl
  | cons w ws ih =>
    intro b res
    simp only [List.cons_append, BreathAnalyzer.feed]
    exact ih _ _

theorem feed_bcfg (ws : List WindowResult) :
    ∀ (b : BreathAnalyzer) (res : BreathResult),
      (b.feed res ws).1.bcfg = b.bcfg := by
  induction ws with
  | nil => intro b res; rfl
  | cons w ws ih =>
    intro b res
    simp only [BreathAnalyzer.feed]
    rw [ih, AnalyzeBreath_bcfg]

/-- Warmup progress invariant: feeding `j` stable windows (each with a
nonzero end time) from the initial state, with
`1 ≤ j ≤ max 1 (warmup_stable_windows - 1)`, the machine is still in
`Warmup` with `baseline_stable_count = j + 1` while
`j < max 1 (warmup_stable_windows - 1)`, and transitions to `Ready`
exactly at `j = max 1 (warmup_stable_windows - 1)` (the first stable
window is double-counted by `UpdateBaseline`). -/
theorem warmup_feed_inv (bcfg : BreathAnalyzer_Config) :
    ∀ (ws : List WindowResult) (res0 : BreathResult),
      (∀ w ∈ ws, w.stable = true ∧ w.window_end_us ≠ 0) →
      1 ≤ ws.length →
      ws.length ≤ max 1 (bcfg.warmup_stable_windows - 1) →
      (ws.length < max 1 (bcfg.warmup_stable_windows - 1) →
        ((BreathAnalyzer.mkInit bcfg).feed res0 ws).1.breath_state =
            BreathAnalyzerState.Warmup ∧
          ((BreathAnalyzer.mkInit bcfg).feed res0 ws).1.bWarmedup = false ∧
          ((BreathAnalyzer.mkInit bcfg).feed res0 ws).1.bFoundbaseline
            = true ∧
          ((BreathAnalyzer.mkInit bcfg).feed res0 ws).1.baseline_stable_count
            = ws.length + 1) ∧
      (ws.length = max 1 (bcfg.warmup_stable_windows - 1) →
        ((BreathAnalyzer.mkInit bcfg).feed res0 ws).1.breath_state =
            BreathAnalyzerState.Ready ∧
          ((BreathAnalyzer.mkInit bcfg).feed res0 ws).1.bWarmedup = true) := by
  intro ws
  induction ws using List.reverseRecOn with
  | nil =>
    intro res0 _ h1 _
    simp at h1
  | append_singleton ws w ih =>
    intro res0 hall _ hlen
    have hw := hall w (by simp)
    have hws : ∀ x ∈ ws, x.stable = true ∧ x.window_end_us ≠ 0 := by
      intro x hx
      exact hall x (by simp [hx])
    rw [feed_append]
    rcases Nat.eq_zero_or_pos ws.length with hz | hpos
    · have hnil : ws = [] := List.length_eq_zero.mp hz
      subst hnil
      simp only [BreathAnalyzer.feed, List.length_append, List.length_nil,
        List.length_cons, Nat.zero_add]
      have hstep := warmup_step_stable (BreathAnalyzer.mkInit bcfg) res0 w
        hw.1 hw.2 rfl
      have hfd : (BreathAnalyzer.mkInit bcfg).bFoundbaseline = false := rfl
      have hbc : (BreathAnalyzer.mkInit bcfg).bcfg = bcfg := rfl
      rw [hfd, hbc] at hstep
      simp only [Bool.false_eq_true, if_false] at hstep
      constructor
      · intro hlt
        have hcond : ¬ (bcfg.warmup_stable_windows ≤ 1 + 1) := by omega
        rw [if_neg hcond] at hstep
        exact hstep
      · intro heq
        have hcond : bcfg.warmup_stable_windows ≤ 1 + 1 := by omega
        rw [if_pos hcond] at hstep
        exact hstep
    · have hlt : ws.length < max 1 (bcfg.warmup_stable_windows - 1) := by
        simp only [List.length_append, List.length_cons,
          List.length_nil] at hlen
        omega
      obtain ⟨ihst, ihwu, ihfd, ihct⟩ :=
        (ih res0 hws hpos (le_of_lt hlt)).1 hlt
      have hbcfg : ((BreathAnalyzer.mkInit bcfg).feed res0 ws).1.bcfg =
          bcfg := feed_bcfg ws _ res0
      have hstep := warmup_step_stable
        ((BreathAnalyzer.mkInit bcfg).feed res0 ws).1
        ((BreathAnalyzer.mkInit bcfg).feed res0 ws).2 w hw.1 hw.2 ihwu
      rw [if_pos ihfd, ihct, hbcfg] at hstep
      simp only [BreathAnalyzer.feed, List.length_append, List.length_cons,
        List.length_nil]
      constructor
      · intro hlt'
        have hcond : ¬ (bcfg.warmup_stable_windows ≤ ws.length + 1 + 1) := by
          omega
        rw [if_neg hcond] at hstep
        exact ⟨hstep.1, hstep.2.1, hstep.2.2.1, hstep.2.2.2⟩
      · intro heq
        have hcond : bcfg.warmup_stable_windows ≤ ws.length + 1 + 1 := by
          omega
        rw [if_pos hcond] at hstep
        exact hstep

/-- Claim C4 (amended): starting in `Warmup`, the baseline is EWMA-updated
only from stable windows (an unstable window leaves both baseline fields
unchanged; a stable window applies
`baseline = (1 - alpha) * baseline + alpha * window`), and the machine
transitions to `Ready` on the `max 1 (warmup_stable_windows - 1)`-th stable
window — one earlier than the configured count whenever
`warmup_stable_windows ≥ 2`, because `UpdateBaseline` counts the first
stable window twice (sets the counter to 1, then increments it again). -/
theorem claim_C4_theorem (bcfg : BreathAnalyzer_Config) :
    (∀ (ws : List WindowResult) (res0 : BreathResult),
      (∀ w ∈ ws, w.stable = true ∧ w.window_end_us ≠ 0) →
      (ws.length < max 1 (bcfg.warmup_stable_windows - 1) →
        ((BreathAnalyzer.mkInit bcfg).feed res0 ws).1.breath_state =
            BreathAnalyzerState.Warmup ∧
          ((BreathAnalyzer.mkInit bcfg).feed res0 ws).1.bWarmedup = false) ∧
      (ws.length = max 1 (bcfg.warmup_stable_windows - 1) →
        ((BreathAnalyzer.mkInit bcfg).feed res0 ws).1.breath_state =
            BreathAnalyzerState.Ready ∧
          ((BreathAnalyzer.mkInit bcfg).feed res0 ws).1.bWarmedup = true)) ∧
    (∀ (b : BreathAnalyzer) (res : BreathResult) (w : WindowResult),
      b.bWarmedup = false → w.stable = false →
      (b.AnalyzeBreath w res).2.2.1.baseline_mean = res.baseline_mean ∧
        (b.AnalyzeBreath w res).2.2.1.baseline_std = res.baseline_std) ∧
    (∀ (b : BreathAnalyzer) (res : BreathResult) (w : WindowResult),
      b.bWarmedup = false → w.window_end_us ≠ 0 → w.stable = true →
      b.bFoundbaseline = true →
      (b.AnalyzeBreath w res).2.2.1.baseline_mean =
          (1 - b.bcfg.baseline_alpha) * res.baseline_mean +
            b.bcfg.baseline_alpha * w.mean ∧
        (b.AnalyzeBreath w res).2.2.1.baseline_std =
          (1 - b.bcfg.baseline_alpha) * res.baseline_std +
            b.bcfg.baseline_alpha * w.stddev) := by
  refine ⟨?_, ?_, ?_⟩
  · intro ws res0 hall
    constructor
    · intro hlt
      rcases Nat.eq_zero_or_pos ws.length with hz | hpos
      · have hnil : ws = [] := List.length_eq_zero.mp hz
        subst hnil
        exact ⟨rfl, rfl⟩
      · have h := (warmup_feed_inv bcfg ws res0 hall hpos
          (le_of_lt hlt)).1 hlt
        exact ⟨h.1, h.2.1⟩
    · intro heq
      have hpos : 1 ≤ ws.length := by omega
      exact (warmup_feed_inv bcfg ws res0 hall hpos (le_of_eq heq)).2 heq
  · intro b res w hwu hst
    unfold BreathAnalyzer.AnalyzeBreath
    dsimp only
    by_cases he : w.window_end_us = 0
    · simp [he]
    · rw [if_neg he]
      simp only [hwu, Bool.not_false, if_true]
      unfold BreathAnalyzer.UpdateBaseline
      dsimp only
      simp [hst]
  · intro b res w hwu he hst hfd
    unfold BreathAnalyzer.AnalyzeBreath
    dsimp only
    rw [if_neg he]
    simp only [hwu, Bool.not_false, if_true]
    unfold BreathAnalyzer.UpdateBaseline
    dsimp only
    simp [hst, hfd]

/-- Claim C4 (witness): with `warmup_stable_windows = 3`, two stable
windows (= `max 1 (3 - 1)`) transition the machine to `Ready`. -/
theorem claim_C4_witness :
    (∀ w ∈ [(⟨true, 1, 0, some 0, 0, 1, 2⟩ : WindowResult),
        ⟨true, 1, 0, some 0, 0, 1, 2⟩],
      w.stable = true ∧ w.window_end_us ≠ 0) ∧
    ([(⟨true, 1, 0, some 0, 0, 1, 2⟩ : WindowResult),
        ⟨true, 1, 0, some 0, 0, 1, 2⟩].length =
      max 1 (({ defaultBreathCfg with
        warmup_stable_windows := 3 } : BreathAnalyzer_Config).warmup_stable_windows - 1)) ∧
    ((BreathAnalyzer.mkInit { defaultBreathCfg with
        warmup_stable_windows := 3 }).feed {}
        [⟨true, 1, 0, some 0, 0, 1, 2⟩,
         ⟨true, 1, 0, some 0, 0, 1, 2⟩]).1.breath_state =
      BreathAnalyzerState.Ready :=
  ⟨by decide, by decide,
   (((claim_C4_theorem { defaultBreathCfg with
       warmup_stable_windows := 3 }).1
     [⟨true, 1, 0, some 0, 0, 1, 2⟩, ⟨true, 1, 0, some 0, 0, 1, 2⟩] {}
     (by decide)).2 (by decide)).1⟩

/-- Claim C7: in the `Processing` state, when an exit condition holds
(window mean at or below the end threshold, or elapsed time since breath
start reaching `max_blow_time_us`) and the elapsed time is still below
`min_blow_time_us`, the machine emits no event (`AnalyzeBreath` returns
`false`) and transitions directly to `Cooldown`. -/
theorem claim_C7_theorem (b : BreathAnalyzer) (res : BreathResult)
    (w : WindowResult) (hwarm : b.bWarmedup = true)
    (hstate : b.breath_state = BreathAnalyzerState.Processing)
    (he : w.window_end_us ≠ 0)
    (hexit : w.mean ≤ res.baseline_mean + b.bcfg.end_delta_v +
        b.bcfg.end_k_sigma * res.baseline_std ∨
      b.bcfg.max_blow_time_us ≤ u64sub w.window_end_us b.breath_start_us)
    (hshort : u64sub w.window_end_us b.breath_start_us <
      b.bcfg.min_blow_time_us) :
    (b.AnalyzeBreath w res).1 = false ∧
      (b.AnalyzeBreath w res).2.1.breath_state =
        BreathAnalyzerState.Cooldown := by
  unfold BreathAnalyzer.AnalyzeBreath
  dsimp only
  rw [if_neg he]
  simp only [hwarm, Bool.not_true, Bool.false_eq_true, if_false]
  rw [hstate]
  unfold BreathAnalyzer.Processing
  dsimp only
  have hcond1 : (!decide (w.mean ≤ res.baseline_mean + b.bcfg.end_delta_v +
      b.bcfg.end_k_sigma * res.baseline_std) &&
      !decide (b.bcfg.max_blow_time_us ≤
        u64sub w.window_end_us b.breath_start_us)) = false := by
    rcases hexit with h | h <;> simp [h]
  rw [hcond1]
  simp only [Bool.false_eq_true, if_false]
  rw [if_pos hshort]
  exact ⟨rfl, rfl⟩

/-- Claim C7 (witness): a Processing-state machine at breath start 1000
with a falling window ending at 3000 (elapsed 2000 < 400000) emits nothing
and lands in `Cooldown`. -/
theorem claim_C7_witness :
    (u64sub 3000 1000 < defaultBreathCfg.min_blow_time_us) ∧
    ((⟨defaultBreathCfg, BreathAnalyzerState.Processing, 0, 0, 1000, 0, 0,
        1, true, true, false⟩ : BreathAnalyzer).AnalyzeBreath
        ⟨false, 0, 0, some 0, 0, 2000, 3000⟩ {}).1 = false ∧
    ((⟨defaultBreathCfg, BreathAnalyzerState.Processing, 0, 0, 1000, 0, 0,
        1, true, true, false⟩ : BreathAnalyzer).AnalyzeBreath
        ⟨false, 0, 0, some 0, 0, 2000, 3000⟩ {}).2.1.breath_state =
      BreathAnalyzerState.Cooldown := by
  have h := claim_C7_theorem
    ⟨defaultBreathCfg, BreathAnalyzerState.Processing, 0, 0, 1000, 0, 0,
      1, true, true, false⟩ {} ⟨false, 0, 0, some 0, 0, 2000, 3000⟩
    rfl rfl (by decide)
    (Or.inl (by norm_num [defaultBreathCfg]))
    (by decide)
  exact ⟨by decide, h.1, h.2⟩

theorem UpdateBaseline_preserves (b : BreathAnalyzer) (w : WindowResult)
    (res : BreathResult) :
    (b.UpdateBaseline w res).1.breath_state = b.breath_state ∧
      (b.UpdateBaseline w res).1.cur_peak_voltage = b.cur_peak_voltage ∧
      (b.UpdateBaseline w res).1.breath_start_us = b.breath_start_us ∧
      (b.UpdateBaseline w res).1.bWarmedup = b.bWarmedup := by
  unfold BreathAnalyzer.UpdateBaseline
  dsimp only
  split_ifs <;> exact ⟨rfl, rfl, rfl, rfl⟩

/-- Ready-to-Processing trigger: a window at or above the start threshold
records the breath start and seeds the peak with the window's mean. -/
theorem Ready_trigger (b : BreathAnalyzer) (res : BreathResult)
    (w : WindowResult) (hwarm : b.bWarmedup = true)
    (hstate : b.breath_state = BreathAnalyzerState.Ready)
    (he : w.window_end_us ≠ 0)
    (htrig : res.baseline_mean + b.bcfg.start_delta_v +
      b.bcfg.start_k_sigma * res.baseline_std ≤ w.mean) :
    (b.AnalyzeBreath w res).2.1.breath_state =
        BreathAnalyzerState.Processing ∧
      (b.AnalyzeBreath w res).2.1.cur_peak_voltage = w.mean ∧
      (b.AnalyzeBreath w res).2.1.breath_start_us =
        (if w.window_start_us ≠ 0 then w.window_start_us else
          w.window_end_us) ∧
      (b.AnalyzeBreath w res).2.1.bcfg = b.bcfg ∧
      (b.AnalyzeBreath w res).2.1.bWarmedup = true := by
  unfold BreathAnalyzer.AnalyzeBreath
  dsimp only
  rw [if_neg he]
  simp only [hwarm, Bool.not_true, Bool.false_eq_true, if_false]
  rw [hstate]
  unfold BreathAnalyzer.Ready
  dsimp only
  have hnot : ¬ (w.mean < res.baseline_mean + b.bcfg.start_delta_v +
      b.bcfg.start_k_sigma * res.baseline_std) := not_lt.mpr htrig
  rw [if_neg hnot]
  exact ⟨rfl, rfl, rfl, (UpdateBaseline_bcfg _ _ _).trans rfl,
    ((UpdateBaseline_preserves _ _ _).2.2.2).trans rfl⟩

/-- Fields maintained by every `Processing` step, whether or not it exits:
the peak absorbs the window's mean, and breath start, config, and warmup
flag are untouched. -/
theorem Processing_fields (b : BreathAnalyzer) (res : BreathResult)
    (w : WindowResult) (hwarm : b.bWarmedup = true)
    (hstate : b.breath_state = BreathAnalyzerState.Processing)
    (he : w.window_end_us ≠ 0) :
    (b.AnalyzeBreath w res).2.1.cur_peak_voltage =
        max b.cur_peak_voltage w.mean ∧
      (b.AnalyzeBreath w res).2.1.breath_start_us = b.breath_start_us ∧
      (b.AnalyzeBreath w res).2.1.bcfg = b.bcfg ∧
      (b.AnalyzeBreath w res).2.1.bWarmedup = true := by
  unfold BreathAnalyzer.AnalyzeBreath
  dsimp only
  rw [if_neg he]
  simp only [hwarm, Bool.not_true, Bool.false_eq_true, if_false]
  rw [hstate]
  unfold BreathAnalyzer.Processing
  dsimp only
  split_ifs <;> exact ⟨rfl, rfl, rfl, rfl⟩

/-- Emission analysis of a `Processing` step: when `AnalyzeBreath` returns
`true` the produced event carries the recorded breath start, the emitting
window's end, and the absorbed peak, and the elapsed `uint64` time is at
least `min_blow_time_us`. -/
theorem Processing_emit (b : BreathAnalyzer) (res : BreathResult)
    (w : WindowResult) (hwarm : b.bWarmedup = true)
    (hstate : b.breath_state = BreathAnalyzerState.Processing)
    (he : w.window_end_us ≠ 0)
    (hemit : (b.AnalyzeBreath w res).1 = true) :
    (b.AnalyzeBreath w res).2.2.2.start_us = b.breath_start_us ∧
      (b.AnalyzeBreath w res).2.2.2.end_us = w.window_end_us ∧
      (b.AnalyzeBreath w res).2.2.2.peak_voltage =
        max b.cur_peak_voltage w.mean ∧
      b.bcfg.min_blow_time_us ≤
        u64sub w.window_end_us b.breath_start_us := by
  unfold BreathAnalyzer.AnalyzeBreath at hemit ⊢
  dsimp only at hemit ⊢
  rw [if_neg he] at hemit ⊢
  simp only [hwarm, Bool.not_true, Bool.false_eq_true, if_false] at hemit ⊢
  rw [hstate] at hemit ⊢
  unfold BreathAnalyzer.Processing at hemit ⊢
  dsimp only at hemit ⊢
  split_ifs at hemit ⊢ with h1 h2
  exact ⟨rfl, rfl, rfl, by omega⟩

theorem le_foldl_max (l : List ℚ) : ∀ (x : ℚ), x ≤ l.foldl max x := by
  induction l with
  | nil => intro x; exact le_refl x
  | cons y l ih =>
    intro x
    exact le_trans (le_max_left x y) (ih (max x y))

/-- Peak accumulation along a `Processing` segment that never exits: the
peak is the running maximum of the observed window means, with breath
start, config, and warmup flag untouched. -/
theorem processing_feed (ws : List WindowResult) :
    ∀ (b : BreathAnalyzer) (res : BreathResult), b.bWarmedup = true →
      b.breath_state = BreathAnalyzerState.Processing →
      (∀ w ∈ ws, w.window_end_us ≠ 0) →
      (∀ i, i ≤ ws.length → ((b.feed res (ws.take i)).1.breath_state =
        BreathAnalyzerState.Processing)) →
      (b.feed res ws).1.cur_peak_voltage =
          (ws.map WindowResult.mean).foldl max b.cur_peak_voltage ∧
        (b.feed res ws).1.breath_start_us = b.breath_start_us ∧
        (b.feed res ws).1.bcfg = b.bcfg ∧
        (b.feed res ws).1.bWarmedup = true ∧
        (b.feed res ws).1.breath_state = BreathAnalyzerState.Processing := by
  induction ws with
  | nil =>
    intro b res hwarm hstate _ _
    exact ⟨rfl, rfl, rfl, hwarm, hstate⟩
  | cons w ws ih =>
    intro b res hwarm hstate hall hkeep
    have hw : w.window_end_us ≠ 0 := hall w (by simp)
    have hws : ∀ x ∈ ws, x.window_end_us ≠ 0 := by
      intro x hx
      exact hall x (by simp [hx])
    obtain ⟨hpk, hbs, hcfg, hwu⟩ := Processing_fields b res w hwarm hstate hw
    have hstate1 : (b.AnalyzeBreath w res).2.1.breath_state =
        BreathAnalyzerState.Processing := by
      have := hkeep 1 (by simp)
      simpa [BreathAnalyzer.feed] using this
    have hkeep' : ∀ i, i ≤ ws.length →
        (((b.AnalyzeBreath w res).2.1.feed (b.AnalyzeBreath w res).2.2.1
          (ws.take i)).1.breath_state = BreathAnalyzerState.Processing) := by
      intro i hi
      have := hkeep (i + 1) (by simp; omega)
      simpa [BreathAnalyzer.feed] using this
    have IH := ih (b.AnalyzeBreath w res).2.1 (b.AnalyzeBreath w res).2.2.1
      hwu hstate1 hws hkeep'
    simp only [BreathAnalyzer.feed]
    refine ⟨?_, ?_, ?_, IH.2.2.2.1, IH.2.2.2.2⟩
    · rw [IH.1, hpk]
      simp
    · rw [IH.2.1, hbs]
    · rw [IH.2.2.1, hcfg]

/-- Claim C10: whenever `AnalyzeBreath` emits a completed `BreathEvent`
(returns `true`) at the end of a `Processing` run entered from `Ready` by a
trigger window `w0` and sustained through `mid` (each intermediate step
remaining in `Processing`), the event satisfies
`min_blow_time_us ≤ end_us - start_us` (`uint64` difference), and its
`peak_voltage` is the maximum window mean observed from the trigger window
through the emitting window — in particular at least the trigger window's
mean. -/
theorem claim_C10_theorem (b0 : BreathAnalyzer) (res0 : BreathResult)
    (w0 wk : WindowResult) (mid : List WindowResult)
    (hwarm : b0.bWarmedup = true)
    (hstate : b0.breath_state = BreathAnalyzerState.Ready)
    (he0 : w0.window_end_us ≠ 0) (hemid : ∀ w ∈ mid, w.window_end_us ≠ 0)
    (hek : wk.window_end_us ≠ 0)
    (htrig : res0.baseline_mean + b0.bcfg.start_delta_v +
      b0.bcfg.start_k_sigma * res0.baseline_std ≤ w0.mean)
    (hkeep : ∀ i, i ≤ mid.length →
      (((b0.AnalyzeBreath w0 res0).2.1.feed (b0.AnalyzeBreath w0 res0).2.2.1
        (mid.take i)).1.breath_state = BreathAnalyzerState.Processing))
    (hemit : ((((b0.AnalyzeBreath w0 res0).2.1.feed
        (b0.AnalyzeBreath w0 res0).2.2.1 mid).1).AnalyzeBreath wk
        (((b0.AnalyzeBreath w0 res0).2.1.feed
          (b0.AnalyzeBreath w0 res0).2.2.1 mid).2)).1 = true) :
    (let fb := (b0.AnalyzeBreath w0 res0).2.1.feed
      (b0.AnalyzeBreath w0 res0).2.2.1 mid
     let ev := (fb.1.AnalyzeBreath wk fb.2).2.2.2
     ev.start_us = (if w0.window_start_us ≠ 0 then w0.window_start_us else
         w0.window_end_us) ∧
       ev.end_us = wk.window_end_us ∧
       b0.bcfg.min_blow_time_us ≤ u64sub ev.end_us ev.start_us ∧
       ev.peak_voltage =
         ((mid ++ [wk]).map WindowResult.mean).foldl max w0.mean ∧
       w0.mean ≤ ev.peak_voltage) := by
  obtain ⟨htst, htpk, htbs, htcfg, htwu⟩ :=
    Ready_trigger b0 res0 w0 hwarm hstate he0 htrig
  obtain ⟨hfpk, hfbs, hfcfg, hfwu, hfst⟩ := processing_feed mid
    (b0.AnalyzeBreath w0 res0).2.1 (b0.AnalyzeBreath w0 res0).2.2.1
    htwu htst hemid hkeep
  obtain ⟨hes, hee, hep, hemin⟩ := Processing_emit _ _ wk hfwu hfst hek hemit
  dsimp only
  rw [hfcfg, htcfg] at hemin
  rw [hes, hee, hep, hfbs, htbs, hfpk, htpk]
  refine ⟨rfl, rfl, ?_, ?_, ?_⟩
  · rw [hfbs, htbs] at hemin
    exact hemin
  · rw [List.map_append, List.foldl_append]
    rfl
  · exact le_trans (le_foldl_max _ _) (le_max_left _ _)

/-- Emission counterpart of claim C7: in `Processing`, an exit condition
with elapsed time at least `min_blow_time_us` makes `AnalyzeBreath` return
`true`. -/
theorem Processing_emits (b : BreathAnalyzer) (res : BreathResult)
    (w : WindowResult) (hwarm : b.bWarmedup = true)
    (hstate : b.breath_state = BreathAnalyzerState.Processing)
    (he : w.window_end_us ≠ 0)
    (hexit : w.mean ≤ res.baseline_mean + b.bcfg.end_delta_v +
        b.bcfg.end_k_sigma * res.baseline_std ∨
      b.bcfg.max_blow_time_us ≤ u64sub w.window_end_us b.breath_start_us)
    (hlong : b.bcfg.min_blow_time_us ≤
      u64sub w.window_end_us b.breath_start_us) :
    (b.AnalyzeBreath w res).1 = true := by
  unfold BreathAnalyzer.AnalyzeBreath
  dsimp only
  rw [if_neg he]
  simp only [hwarm, Bool.not_true, Bool.false_eq_true, if_false]
  rw [hstate]
  unfold BreathAnalyzer.Processing
  dsimp only
  have hcond1 : (!decide (w.mean ≤ res.baseline_mean + b.bcfg.end_delta_v +
      b.bcfg.end_k_sigma * res.baseline_std) &&
      !decide (b.bcfg.max_blow_time_us ≤
        u64sub w.window_end_us b.breath_start_us)) = false := by
    rcases hexit with h | h <;> simp [h]
  rw [hcond1]
  simp only [Bool.false_eq_true, if_false]
  rw [if_neg (not_lt.mpr hlong)]

/-- Claim C10 (witness): a Ready-state machine triggered by a window of
mean 1 starting at 1000, then exiting via the max-blow timeout at a window
ending at 6000000; the emitted event starts at 1000, ends at 6000000,
satisfies the min-blow bound, and carries the maximum observed mean. -/
theorem claim_C10_witness :
    ((⟨defaultBreathCfg, BreathAnalyzerState.Ready, 0, 0, 0, 0, 0, 0, true,
        true, false⟩ : BreathAnalyzer)).bWarmedup = true ∧
    (let b0 : BreathAnalyzer := ⟨defaultBreathCfg, BreathAnalyzerState.Ready,
       0, 0, 0, 0, 0, 0, true, true, false⟩
     let res0 : BreathResult := {}
     let w0 : WindowResult := ⟨false, 1, 0, some 0, 0, 1000, 2000⟩
     let wk : WindowResult := ⟨false, 0, 0, some 0, 0, 5500000, 6000000⟩
     let fb := (b0.AnalyzeBreath w0 res0).2.1.feed
       (b0.AnalyzeBreath w0 res0).2.2.1 []
     let ev := (fb.1.AnalyzeBreath wk fb.2).2.2.2
     ev.start_us = (if w0.window_start_us ≠ 0 then w0.window_start_us else
         w0.window_end_us) ∧
       ev.end_us = wk.window_end_us ∧
       b0.bcfg.min_blow_time_us ≤ u64sub ev.end_us ev.start_us ∧
       ev.peak_voltage =
         (([] ++ [wk]).map WindowResult.mean).foldl max w0.mean ∧
       w0.mean ≤ ev.peak_voltage) := by
  refine ⟨rfl, ?_⟩
  have htrig : ((({} : BreathResult)).baseline_mean +
      defaultBreathCfg.start_delta_v +
      defaultBreathCfg.start_k_sigma * (({} : BreathResult)).baseline_std ≤
      ((⟨false, 1, 0, some 0, 0, 1000, 2000⟩ : WindowResult)).mean) := by
    show (0 : ℚ) + 5 / 100 + 3 * 0 ≤ 1
    norm_num
  have h1 := Ready_trigger
    ⟨defaultBreathCfg, BreathAnalyzerState.Ready, 0, 0, 0, 0, 0, 0, true,
      true, false⟩ {} ⟨false, 1, 0, some 0, 0, 1000, 2000⟩ rfl rfl
    (by decide) htrig
  have hbs : ((⟨defaultBreathCfg, BreathAnalyzerState.Ready, 0, 0, 0, 0, 0,
      0, true, true, false⟩ : BreathAnalyzer).AnalyzeBreath
      ⟨false, 1, 0, some 0, 0, 1000, 2000⟩ {}).2.1.breath_start_us =
      1000 := by
    rw [h1.2.2.1]
    simp
  have hbcfg := h1.2.2.2.1
  have hexit : ((⟨defaultBreathCfg, BreathAnalyzerState.Ready, 0, 0, 0, 0,
      0, 0, true, true, false⟩ : BreathAnalyzer).AnalyzeBreath
      ⟨false, 1, 0, some 0, 0, 1000, 2000⟩ {}).2.1.bcfg.max_blow_time_us ≤
      u64sub 6000000 ((⟨defaultBreathCfg, BreathAnalyzerState.Ready, 0, 0,
        0, 0, 0, 0, true, true, false⟩ : BreathAnalyzer).AnalyzeBreath
        ⟨false, 1, 0, some 0, 0, 1000, 2000⟩ {}).2.1.breath_start_us := by
    rw [hbs, hbcfg]
    decide
  have hlong : ((⟨defaultBreathCfg, BreathAnalyzerState.Ready, 0, 0, 0, 0,
      0, 0, true, true, false⟩ : BreathAnalyzer).AnalyzeBreath
      ⟨false, 1, 0, some 0, 0, 1000, 2000⟩ {}).2.1.bcfg.min_blow_time_us ≤
      u64sub 6000000 ((⟨defaultBreathCfg, BreathAnalyzerState.Ready, 0, 0,
        0, 0, 0, 0, true, true, false⟩ : BreathAnalyzer).AnalyzeBreath
        ⟨false, 1, 0, some 0, 0, 1000, 2000⟩ {}).2.1.breath_start_us := by
    rw [hbs, hbcfg]
    decide
  have hemit := Processing_emits
    ((⟨defaultBreathCfg, BreathAnalyzerState.Ready, 0, 0, 0, 0, 0, 0, true,
        true, false⟩ : BreathAnalyzer).AnalyzeBreath
      ⟨false, 1, 0, some 0, 0, 1000, 2000⟩ {}).2.1
    ((⟨defaultBreathCfg, BreathAnalyzerState.Ready, 0, 0, 0, 0, 0, 0, true,
        true, false⟩ : BreathAnalyzer).AnalyzeBreath
      ⟨false, 1, 0, some 0, 0, 1000, 2000⟩ {}).2.2.1
    ⟨false, 0, 0, some 0, 0, 5500000, 6000000⟩ h1.2.2.2.2 h1.1 (by decide)
    (Or.inr hexit) hlong
  exact claim_C10_theorem
    ⟨defaultBreathCfg, BreathAnalyzerState.Ready, 0, 0, 0, 0, 0, 0, true,
      true, false⟩ {} ⟨false, 1, 0, some 0, 0, 1000, 2000⟩
    ⟨false, 0, 0, some 0, 0, 5500000, 6000000⟩ [] rfl rfl (by decide)
    (by intro w hw; simp at hw) (by decide) htrig
    (by
      intro i hi
      have hz : i = 0 := Nat.le_zero.mp (by simpa using hi)
      subst hz
      exact h1.1)
    hemit

theorem Processing_event_State (b : BreathAnalyzer) (w : WindowResult)
    (res : BreathResult) (th : ℚ) (ev : BreathEvent) :
    (b.Processing w res th ev).2.2.2.State = ev.State := by
  unfold BreathAnalyzer.Processing
  dsimp only
  split_ifs <;> rfl

/-- The breath event written by `AnalyzeBreath` never carries the `None`
state: the default is `Warmup`, and every branch that overwrites it writes
a concrete phase (`Ready`, `Processing`, `Analyzed`, `Cooldown`). -/
theorem AnalyzeBreath_event_State_ne_none (b : BreathAnalyzer)
    (w : WindowResult) (res : BreathResult) :
    (b.AnalyzeBreath w res).2.2.2.State ≠ BreathAnalyzerState.None := by
  unfold BreathAnalyzer.AnalyzeBreath
  dsimp only
  by_cases h0 : w.window_end_us = 0
  · rw [if_pos h0]
    exact fun h => nomatch h
  · rw [if_neg h0]
    by_cases hw : b.bWarmedup = true
    · simp only [hw, Bool.not_true, Bool.false_eq_true, if_false]
      cases hst : b.breath_state <;> dsimp only
      · exact fun h => nomatch h
      · exact fun h => nomatch h
      · exact fun h => nomatch h
      · rw [Processing_event_State]
        exact fun h => nomatch h
      · exact fun h => nomatch h
      · exact fun h => nomatch h
    · have hw' : b.bWarmedup = false := by
        cases hb : b.bWarmedup
        · rfl
        · exact absurd hb hw
      simp only [hw', Bool.not_false, if_true]
      exact fun h => nomatch h

theorem toStateEvent_eq_none (s : BreathAnalyzerState)
    (h : toStateEvent s = StateEvent.None) : s = BreathAnalyzerState.None := by
  cases s <;> first | rfl | exact absurd h (by decide)

/-- Claim C9 (amended): whenever a batch finalizes a window,
`RuntimeProcess::on_batch` signals an event — its `event` field is never
`None`, because the breath event's state is always a concrete phase — even
when the breath state machine makes no transition; the pending-event slot
is set, a single `pop_breath_event` retrieves it, and a second pop returns
nothing (the slot holds at most one event, so an unread event is
overwritten by the next finalized window rather than queued). -/
theorem claim_C9_theorem (sqrtQ : ℚ → ℚ) (rp : RuntimeProcess)
    (samples : List Sample)
    (hfin : (rp.W_analyzer.AnalyzeBatch sqrtQ samples
      get_volts).1.result.window_end_us ≠ 0) :
    (let ob := rp.on_batch sqrtQ samples
     ob.1.event ≠ StateEvent.None ∧
       ob.2.bHasEvent = true ∧
       ob.2.pop_breath_event.1 = some ob.2.last_event ∧
       ob.2.pop_breath_event.2.pop_breath_event.1 = none) := by
  dsimp only
  unfold RuntimeProcess.on_batch
  dsimp only
  rw [if_pos hfin]
  refine ⟨?_, rfl, rfl, rfl⟩
  intro h
  exact AnalyzeBreath_event_State_ne_none _ _ _ (toStateEvent_eq_none _ h)

/-- Claim C9 (witness): from the freshly constructed runtime processor,
samples at 1 and 1000002 µs finalize one (underfilled, unstable) window;
the theorem then yields a signaled event and single-slot pop behaviour. -/
theorem claim_C9_witness :
    ((({ W_analyzer := WelfordAnalyzer.mkInit defaultAnalyzerCfg,
         B_analyzer := BreathAnalyzer.mkInit defaultBreathCfg } :
        RuntimeProcess)).W_analyzer.AnalyzeBatch sqrtQ0
        [⟨1, 0, 1⟩, ⟨1000002, 0, 1⟩] get_volts).1.result.window_end_us ≠ 0 ∧
    (let ob := ({ W_analyzer := WelfordAnalyzer.mkInit defaultAnalyzerCfg,
                  B_analyzer := BreathAnalyzer.mkInit defaultBreathCfg } :
        RuntimeProcess).on_batch sqrtQ0 [⟨1, 0, 1⟩, ⟨1000002, 0, 1⟩]
     ob.1.event ≠ StateEvent.None ∧
       ob.2.bHasEvent = true ∧
       ob.2.pop_breath_event.1 = some ob.2.last_event ∧
       ob.2.pop_breath_event.2.pop_breath_event.1 = none) :=
  ⟨by decide, claim_C9_theorem sqrtQ0 _ _ (by decide)⟩

/-- Claim C9 (counterexample): an underfilled window finalized during
warmup causes no state transition (the machine stays in `Warmup`), yet
`on_batch` still signals a non-`None` event; and after two such finalized
windows with no pop in between, only one event is retrievable — the first
is lost by overwriting the single slot. -/
theorem claim_C9_counterexample :
    (let rp0 : RuntimeProcess :=
       { W_analyzer := WelfordAnalyzer.mkInit defaultAnalyzerCfg,
         B_analyzer := BreathAnalyzer.mkInit defaultBreathCfg }
     let ob1 := rp0.on_batch sqrtQ0 [⟨1, 0, 1⟩, ⟨1000002, 0, 1⟩]
     let ob2 := ob1.2.on_batch sqrtQ0 [⟨2000002, 0, 1⟩]
     (rp0.B_analyzer.breath_state = BreathAnalyzerState.Warmup ∧
        ob1.2.B_analyzer.breath_state = BreathAnalyzerState.Warmup ∧
        ob1.1.event ≠ StateEvent.None) ∧
       ob2.1.event ≠ StateEvent.None ∧
       ob2.2.pop_breath_event.1.isSome = true ∧
       ob2.2.pop_breath_event.2.pop_breath_event.1.isNone = true) := by
  dsimp only
  decide

/-- Claim C8: with the timeout enabled, a transport that never yields
samples, and the running flag held, the consumer loop returns the
processor's untouched snapshot (`resultOf s` for the initial state `s`) as
soon as an idle-path clock read at or past the timeout occurs within the
run, and the event callback is never invoked (the invocation counter is
returned unchanged). -/
theorem claim_C8_theorem {σ ρ : Type} (drains : Nat → List Sample)
    (clockA clockB : Nat → Nat) (running : Nat → Bool)
    (onBatch : σ → List Sample → StepResult ρ × σ) (resultOf : σ → ρ)
    (timeout start : Nat) (fuel i : Nat) (s : σ) (events : Nat)
    (hdrain : ∀ j, drains j = []) (hrun : ∀ j, running j = true)
    (htmo : ∃ k, k < fuel ∧ timeout ≤ clockA (i + k) - start) :
    ProcessRunner_run drains clockA clockB running onBatch resultOf
      true timeout start fuel i s events = (some (resultOf s), events) := by
  induction fuel generalizing i with
  | zero =>
    obtain ⟨k, hk, _⟩ := htmo
    omega
  | succ n IH =>
    unfold ProcessRunner_run
    rw [hrun i]
    rw [if_neg (by decide)]
    dsimp only
    rw [hdrain i]
    rw [if_pos List.length_nil]
    by_cases hta : timeout ≤ clockA i - start
    · rw [if_pos (by simp [hta])]
    · rw [if_neg (by simp [hta])]
      obtain ⟨k, hk, hke⟩ := htmo
      have hkz : k ≠ 0 := by
        intro h
        rw [h, Nat.add_zero] at hke
        exact hta hke
      refine IH (i + 1) ⟨k - 1, ?_, ?_⟩
      · omega
      · have : i + 1 + (k - 1) = i + k := by omega
        rw [this]
        exact hke

/-- Claim C8 (witness): a calibration processor (which opts into the
timeout), an always-empty transport, timeout 100 with the first idle clock
read at 1000: one iteration returns the initial zero-valued window
snapshot with zero callback invocations. -/
theorem claim_C8_witness :
    (∀ j : Nat, (fun _ : Nat => ([] : List Sample)) j = []) ∧
    (∀ j : Nat, (fun _ : Nat => true) j = true) ∧
    ({ analyzer := WelfordAnalyzer.mkInit defaultAnalyzerCfg } :
      CalibrationProcess).result = (default : WindowResult) ∧
    ProcessRunner_run (fun _ => []) (fun _ => 1000) (fun _ => 0)
      (fun _ => true) (CalibrationProcess.on_batch sqrtQ0)
      CalibrationProcess.result true 100 0 1 0
      { analyzer := WelfordAnalyzer.mkInit defaultAnalyzerCfg } 0 =
      (some ({ analyzer := WelfordAnalyzer.mkInit defaultAnalyzerCfg } :
        CalibrationProcess).result, 0) :=
  ⟨fun _ => rfl, fun _ => rfl, rfl,
   claim_C8_theorem (fun _ => []) (fun _ => 1000) (fun _ => 0)
     (fun _ => true) (CalibrationProcess.on_batch sqrtQ0)
     CalibrationProcess.result 100 0 1 0
     { analyzer := WelfordAnalyzer.mkInit defaultAnalyzerCfg } 0
     (fun _ => rfl) (fun _ => rfl) ⟨0, by decide⟩⟩
